import Mathlib

/-!
Verification development for the 2D lid-driven cavity solver
(src/DrivenCavity.template-to-students.UPDATED.cpp).

The C++ program is embedded shallowly over exact rational arithmetic:

* A field (the C++ classes Array3 and Array2) is a total function from
  indices to rationals; an assignment `A(i,j,k) = v` becomes a functional
  override `upd3`.
* Every C++ loop nest is embedded as a `List.foldl` over the exact index
  sequence the loop visits, in the same order, with a body that performs
  the same sequence of reads and assignments as the source.
* The grid macros `imax` and `jmax` (fixed to 251 in the source) become
  explicit parameters `nx` and `ny` so that properties can be stated for
  any grid size and witnessed on small grids.
* Calls into the C math library that are not exact on rationals
  (`sqrt`, `sin`, `cos`, and the constant pi) are abstracted into an
  oracle `RealOracle`; `fabs`, `fmin`, `fmax`, `pow2` are exact and are
  embedded directly.  Floating-point rounding is not modelled: the
  development works in exact arithmetic, as the spec qualifies.
-/

namespace DrivenCavity

/-! ## User input constants (source lines 43-67) -/

/-- CFL number used to determine time step (source constant `cfl = 0.8`). -/
def cfl : ℚ := 8/10

/-- Parameter for 4th order artificial viscosity in x (source `Cx = 0.01`). -/
def Cx : ℚ := 1/100

/-- Parameter for 4th order artificial viscosity in y (source `Cy = 0.01`). -/
def Cy : ℚ := 1/100

/-- Tolerance for iterative residual convergence (source `toler = 1.e-10`). -/
def toler : ℚ := 1/10^10

/-- Time derivative preconditioning constant (source `rkappa = 0.1`). -/
def rkappa : ℚ := 1/10

/-- Reynolds number (source `Re = 10.0`). -/
def Re : ℚ := 10

/-- Initial pressure (source `pinf = 0.801333844662`). -/
def pinf : ℚ := 801333844662/1000000000000

/-- Lid velocity (source `uinf = 1.0`). -/
def uinf : ℚ := 1

/-- Density (source `rho = 1.0`). -/
def rho : ℚ := 1

/-- Cavity dimensions (source `xmin`, `xmax`, `ymin`, `ymax`). -/
def xmin : ℚ := 0

/-- Maximum x location (source `xmax = 0.05`). -/
def xmax : ℚ := 5/100

/-- Minimum y location (source `ymin = 0.0`). -/
def ymin : ℚ := 0

/-- Maximum y location (source `ymax = 0.05`). -/
def ymax : ℚ := 5/100

/-! ## Derived input quantities (function `set_derived_inputs`) -/

/-- Inverse density, `rhoinv = one/rho`. -/
def rhoinv : ℚ := 1/rho

/-- Characteristic length, `rlength = xmax - xmin`. -/
def rlength : ℚ := xmax - xmin

/-- Viscosity, `rmu = (rho*uinf*rlength)/Re`. -/
def rmu : ℚ := (rho*uinf*rlength)/Re

/-- Reference velocity squared, `vel2ref = uinf*uinf`. -/
def vel2ref : ℚ := uinf*uinf

/-- Delta x, `dx = (xmax - xmin)/(imax - 1)`; the grid count is a parameter. -/
def dx (nx : ℕ) : ℚ := (xmax - xmin)/((nx : ℚ) - 1)

/-- Delta y, `dy = (ymax - ymin)/(jmax - 1)`; the grid count is a parameter. -/
def dy (ny : ℕ) : ℚ := (ymax - ymin)/((ny : ℚ) - 1)

/-- Source inline helper `pow2(x) = x*x`. -/
def pow2 (x : ℚ) : ℚ := x*x

/-! ## Oracle for inexact math library calls

`sqrt`, `sin`, `cos` and the constant `rpi = acos(-1)` have no exact
rational embedding; they are abstracted as unconstrained rational
functions/values.  Every theorem below is uniform in the oracle, so it in
particular holds for (any rounding of) the true real-valued functions. -/

structure RealOracle where
  sqrtQ : ℚ → ℚ
  sinQ : ℚ → ℚ
  cosQ : ℚ → ℚ
  rpiQ : ℚ

/-- A concrete oracle used only to instantiate witnesses. -/
def oid : RealOracle := ⟨fun q => q, fun q => q, fun q => q, 3⟩

/-! ## Field model (classes Array3 / Array2) -/

/-- An `Array3` field: node `(i,j)` and equation index `k` to value. -/
abbrev Grid3 := ℕ → ℕ → ℕ → ℚ

/-- An `Array2` field: node `(i,j)` to value. -/
abbrev Grid2 := ℕ → ℕ → ℚ

/-- Assignment `A(i,j,k) = v` on an `Array3`. -/
def upd3 (u : Grid3) (i j k : ℕ) (v : ℚ) : Grid3 :=
  fun a b c => if a = i ∧ b = j ∧ c = k then v else u a b c

/-- Assignment `A(i,j) = v` on an `Array2`. -/
def upd2 (g : Grid2) (i j : ℕ) (v : ℚ) : Grid2 :=
  fun a b => if a = i ∧ b = j then v else g a b

/-- Assignment `r[k] = v` on a C array of rationals. -/
def upd1 (r : ℕ → ℚ) (k : ℕ) (v : ℚ) : ℕ → ℚ :=
  fun n => if n = k then v else r n

theorem upd3_eval (u : Grid3) (i j k : ℕ) (v : ℚ) (a b c : ℕ) :
    upd3 u i j k v a b c = if a = i ∧ b = j ∧ c = k then v else u a b c := rfl

theorem upd2_eval (g : Grid2) (i j : ℕ) (v : ℚ) (a b : ℕ) :
    upd2 g i j v a b = if a = i ∧ b = j then v else g a b := rfl

theorem upd1_eval (r : ℕ → ℚ) (k : ℕ) (v : ℚ) (n : ℕ) :
    upd1 r k v n = if n = k then v else r n := rfl

/-! ## Index sequences of the loop nests -/

/-- The index sequence of a nest `for(i=li..) for(j=lj..)`:
`li ≤ i < li+ni` outer, `lj ≤ j < lj+nj` inner. -/
def nodeSeq (li ni lj nj : ℕ) : List (ℕ × ℕ) :=
  (List.range' li ni).flatMap fun i => (List.range' lj nj).map fun j => (i, j)

/-- Interior nodes in the order `for(i=1;i<imax-1;i++) for(j=1;j<jmax-1;j++)`. -/
def interiorNodes (nx ny : ℕ) : List (ℕ × ℕ) := nodeSeq 1 (nx-2) 1 (ny-2)

/-- All nodes in the order `for(i=0;i<imax;i++) for(j=0;j<jmax;j++)`. -/
def allNodes (nx ny : ℕ) : List (ℕ × ℕ) := nodeSeq 0 nx 0 ny

theorem mem_nodeSeq (li ni lj nj a b : ℕ) :
    (a, b) ∈ nodeSeq li ni lj nj ↔
      (li ≤ a ∧ a < li + ni) ∧ (lj ≤ b ∧ b < lj + nj) := by
  simp only [nodeSeq, List.mem_flatMap, List.mem_map, List.mem_range', Prod.mk.injEq]
  constructor
  · rintro ⟨i, ⟨t, ht, rfl⟩, j, ⟨t2, ht2, rfl⟩, rfl, rfl⟩
    omega
  · rintro ⟨⟨h1, h2⟩, h3, h4⟩
    exact ⟨a, ⟨a - li, by omega, by omega⟩, b, ⟨b - lj, by omega, by omega⟩, rfl, rfl⟩

theorem nodup_nodeSeq (li ni lj nj : ℕ) : (nodeSeq li ni lj nj).Nodup := by
  unfold nodeSeq
  induction ni generalizing li with
  | zero => simp
  | succ n ih =>
    rw [List.range'_1_concat, List.flatMap_append]
    rw [List.nodup_append]
    refine ⟨ih li, ?_, ?_⟩
    · simp only [List.flatMap_cons, List.flatMap_nil, List.append_nil]
      exact (List.nodup_range' _ _).map (fun x y h => congrArg Prod.snd h)
    · intro p hp hq
      simp only [List.mem_flatMap, List.mem_map, List.mem_range'] at hp
      obtain ⟨i, ⟨t, ht, rfl⟩, j, hj, rfl⟩ := hp
      simp only [List.flatMap_cons, List.flatMap_nil, List.append_nil,
        List.mem_map, List.mem_range', Prod.mk.injEq] at hq
      obtain ⟨j2, hj2, h1, h2⟩ := hq
      omega

/-! ## A generic evaluation lemma for loops whose body touches one node

Several loops in the program (the point-Jacobi sweep, the pressure
rescaling) visit each node once and, at node `(i,j)`, read the mutated
field only at `(i,j)` itself, writing only `(i,j)`.  For such loops the
final value at a node is the body applied to the initial field. -/

def foldNodes (body : ℕ → ℕ → Grid3 → Grid3) (L : List (ℕ × ℕ)) (u : Grid3) : Grid3 :=
  L.foldl (fun U p => body p.1 p.2 U) u

theorem foldNodes_eval (body : ℕ → ℕ → Grid3 → Grid3)
    (hframe : ∀ i j U a b c, ¬(a = i ∧ b = j) → body i j U a b c = U a b c)
    (hread : ∀ i j U V, (∀ c, U i j c = V i j c) →
      ∀ c, body i j U i j c = body i j V i j c)
    (L : List (ℕ × ℕ)) (hnd : L.Nodup) (u : Grid3) (a b c : ℕ) :
    foldNodes body L u a b c = if (a, b) ∈ L then body a b u a b c else u a b c := by
  induction L generalizing u with
  | nil => simp [foldNodes]
  | cons p t ih =>
    obtain ⟨pi, pj⟩ := p
    rw [List.nodup_cons] at hnd
    have step : foldNodes body ((pi, pj) :: t) u = foldNodes body t (body pi pj u) := rfl
    rw [step, ih hnd.2]
    by_cases hab : a = pi ∧ b = pj
    · obtain ⟨rfl, rfl⟩ := hab
      have hnmem : (a, b) ∉ t := hnd.1
      rw [if_neg hnmem, if_pos (List.mem_cons_self _ _)]
    · have h1 : body pi pj u a b c = u a b c := hframe _ _ _ _ _ _ hab
      by_cases hmem : (a, b) ∈ t
      · rw [if_pos hmem, if_pos (List.mem_cons_of_mem _ hmem)]
        exact hread a b _ _ (fun c => hframe _ _ _ _ _ _ hab) c
      · rw [if_neg hmem, if_neg ?_]
        · exact h1
        · intro hc
          rcases List.mem_cons.mp hc with h | h
          · rw [Prod.mk.injEq] at h
            exact hab h
          · exact hmem h

/-! ## The preconditioning parameter beta-squared, site by site

Each site in the source computes `uvel2` from the local velocity
components and then `beta2 = fmax(uvel2, ...)`.  The second argument of
`fmax` differs textually between the sites: `rkappa*uinf` in
`compute_time_step` (line 904), `Compute_Artificial_Viscosity` (line 955),
both SGS sweeps (lines 1072, 1147) and the convergence monitor
(line 1344), but `rkappa*vel2ref` in `point_Jacobi` (line 1241). -/

/-- Beta squared as computed in `compute_time_step` (source lines 902-904):
`uvel2 = u*u + v*v; beta2 = fmax(uvel2, rkappa*uinf)`. -/
def beta2_time_step (uv vv : ℚ) : ℚ := max (uv*uv + vv*vv) (rkappa*uinf)

/-- Beta squared as computed in `SGS_forward_sweep` (source lines 1071-1072). -/
def beta2_sgs_forward (uv vv : ℚ) : ℚ := max (pow2 uv + pow2 vv) (rkappa*uinf)

/-- Beta squared as computed in `SGS_backward_sweep` (source lines 1146-1147). -/
def beta2_sgs_backward (uv vv : ℚ) : ℚ := max (pow2 uv + pow2 vv) (rkappa*uinf)

/-- Beta squared as computed in `point_Jacobi` (source lines 1239-1241):
note the second argument is `rkappa*vel2ref` here. -/
def beta2_point_jacobi (uv vv : ℚ) : ℚ := max (pow2 uv + pow2 vv) (rkappa*vel2ref)

/-- Beta squared as computed in `check_iterative_convergence`
(source lines 1342-1344). -/
def beta2_convergence (uv vv : ℚ) : ℚ := max (pow2 uv + pow2 vv) (rkappa*uinf)

/-- Beta squared as computed in `Compute_Artificial_Viscosity`
(source lines 953-955). -/
def beta2_artificial_viscosity (uv vv : ℚ) : ℚ := max (pow2 uv + pow2 vv) (rkappa*uinf)

/-! ## Time-step estimator (function `compute_time_step`, source lines 873-922) -/

/-- The local time step computed in the body of the `compute_time_step`
loop at node `(i,j)`: `cfl*fmin(dtconv, dtvisc)`. -/
def localDt (R : RealOracle) (nx ny : ℕ) (u : Grid3) (i j : ℕ) : ℚ :=
  let beta2 := beta2_time_step (u i j 1) (u i j 2)
  let lambda_x := (1/2) * (|u i j 1| + R.sqrtQ (pow2 (u i j 1) + 4*beta2))
  let lambda_y := (1/2) * (|u i j 2| + R.sqrtQ (pow2 (u i j 2) + 4*beta2))
  let lambda_max := if lambda_x > lambda_y then lambda_x else lambda_y
  let dtconv := min (dx nx) (dy ny) / lambda_max
  let dtvisc := (dx nx * dy ny) / (4*rmu*rhoinv)
  cfl * min dtconv dtvisc

/-- `compute_time_step(u, dt, dtmin)`: loop `for(i=1..imax-2) for(j=1..jmax-2)`,
assigning `dtmin = cfl*fmin(dtconv,dtvisc); dt(i,j) = dtmin` at every node.
Returns the final `(dt, dtmin)` pair. -/
def compute_time_step (R : RealOracle) (nx ny : ℕ) (u : Grid3)
    (dtA : Grid2) (dtmin0 : ℚ) : Grid2 × ℚ :=
  (interiorNodes nx ny).foldl
    (fun st p =>
      let dtmin := localDt R nx ny u p.1 p.2
      (upd2 st.1 p.1 p.2 dtmin, dtmin))
    (dtA, dtmin0)

/-! ## Artificial dissipation (function `Compute_Artificial_Viscosity`,
source lines 926-1034).  Three phases: the interior 5-point stencil
(j outer from 2 to jmax-3, i inner from 2 to imax-3), then the loop over
`sides = {1, imax-2}`, then the loop over `top_bottom = {1, jmax-2}`. -/

/-- The value assigned to `viscx(i,j)` by the interior stencil
(source lines 953-972): `(-fabs(lambda_x)*Cx*d4pdx4)/beta2`. -/
def cavVxVal (R : RealOracle) (nx ny : ℕ) (u : Grid3) (i j : ℕ) : ℚ :=
  let uvel2 := pow2 (u i j 1) + pow2 (u i j 2)
  let beta2 := beta2_artificial_viscosity (u i j 1) (u i j 2)
  let lambda_x := (1/2) * (|u i j 1| + R.sqrtQ (uvel2 + 4*beta2))
  let d4pdx4 := (u (i+2) j 0 - 4*u (i+1) j 0 + 6*u i j 0 - 4*u (i-1) j 0 + u (i-2) j 0) / dx nx
  (-|lambda_x| * Cx * d4pdx4) / beta2

/-- The value assigned to `viscy(i,j)` by the interior stencil
(source lines 953-975): `(-fabs(lambda_y)*Cy*d4pdy4)/beta2`. -/
def cavVyVal (R : RealOracle) (nx ny : ℕ) (u : Grid3) (i j : ℕ) : ℚ :=
  let uvel2 := pow2 (u i j 1) + pow2 (u i j 2)
  let beta2 := beta2_artificial_viscosity (u i j 1) (u i j 2)
  let lambda_y := (1/2) * (|u i j 2| + R.sqrtQ (uvel2 + 4*beta2))
  let d4pdy4 := (u i (j+2) 0 - 4*u i (j+1) 0 + 6*u i j 0 - 4*u i (j-1) 0 + u i (j-2) 0) / dy ny
  (-|lambda_y| * Cy * d4pdy4) / beta2

/-- Interior stencil body (source lines 953-975), writing `viscx(i,j)` then
`viscy(i,j)`; the state is the pair `(viscx, viscy)`.  (The source computes
the shared temporaries once; they are repeated inside `cavVxVal` and
`cavVyVal`, which denote the same two assigned values.) -/
def cavStencilBody (R : RealOracle) (nx ny : ℕ) (u : Grid3) (i j : ℕ)
    (st : Grid2 × Grid2) : Grid2 × Grid2 :=
  (upd2 st.1 i j (cavVxVal R nx ny u i j), upd2 st.2 i j (cavVyVal R nx ny u i j))

/-- Body of the `sides` loop (source lines 986-1008).  Both branch tests are
kept as in the source: `i==1` and `i==imax-1` (the latter never fires, since
`i` ranges over `{1, imax-2}`).  Each branch performs the two sequential
assignments to `viscx(i,j)` exactly as written. -/
def cavSideBody (nx ny : ℕ) (i j : ℕ) (st : Grid2 × Grid2) : Grid2 × Grid2 :=
  let st1 :=
    if i = 1 then
      let vx := st.1
      let slope_x := (vx (i+2) j - vx (i+1) j) / dx nx
      let vxA := upd2 vx i j (vx (i+1) j + slope_x * dx nx)
      let slope_y := (vxA (i+2) j - vxA (i+1) j) / dx nx
      let vxB := upd2 vxA i j (vxA (i+1) j + slope_y * dx nx)
      (vxB, st.2)
    else st
  if i = nx - 1 then
    let vx := st1.1
    let slope_x := (vx (i-2) j - vx (i-1) j) / dx nx
    let vxA := upd2 vx i j (vx (i-1) j + slope_x * dx nx)
    let slope_y := (vxA (i-2) j - vxA (i-1) j) / dx nx
    let vxB := upd2 vxA i j (vxA (i-1) j + slope_y * dx nx)
    (vxB, st1.2)
  else st1

/-- Body of the `top_bottom` loop (source lines 1009-1032).  As in the
source, in the `j==1` branch the second assignment writes `viscx(i,j)` from
`viscy` values, and the `j==jmax-1` test never fires for `j` in
`{1, jmax-2}`; the dead branch (including its read of `viscx(i-1,j)`) is
kept verbatim. -/
def cavTopBottomBody (nx ny : ℕ) (i j : ℕ) (st : Grid2 × Grid2) : Grid2 × Grid2 :=
  let st1 :=
    if j = 1 then
      let slope_x := (st.1 i (j+2) - st.1 i (j+1)) / dy ny
      let vxA := upd2 st.1 i j (st.1 i (j+1) + slope_x * dy ny)
      let slope_y := (st.2 i (j+2) - st.2 i (j+1)) / dy ny
      let vxB := upd2 vxA i j (st.2 i (j+1) + slope_y * dy ny)
      (vxB, st.2)
    else st
  if j = ny - 1 then
    let slope_x := (st1.1 i (j-2) - st1.1 i (j-1)) / dy ny
    let vxA := upd2 st1.1 i j (st1.1 (i-1) j + slope_x * dy ny)
    let slope_y := (st1.2 i (j-2) - st1.2 i (j-1)) / dy ny
    let vxB := upd2 vxA i j (st1.2 i (j-1) + slope_y * dy ny)
    (vxB, st1.2)
  else st1

/-- The interior stencil phase: `for(j=2..jmax-3) for(i=2..imax-3)`. -/
def cavStencil (R : RealOracle) (nx ny : ℕ) (u : Grid3) (st : Grid2 × Grid2) :
    Grid2 × Grid2 :=
  (List.range' 2 (ny-4)).foldl
    (fun st j => (List.range' 2 (nx-4)).foldl
      (fun st i => cavStencilBody R nx ny u i j st) st) st

/-- The `sides = {1, imax-2}` phase. -/
def cavSides (nx ny : ℕ) (st : Grid2 × Grid2) : Grid2 × Grid2 :=
  [1, nx-2].foldl
    (fun st i => (List.range' 1 (ny-2)).foldl
      (fun st j => cavSideBody nx ny i j st) st) st

/-- The `top_bottom = {1, jmax-2}` phase. -/
def cavTopBottom (nx ny : ℕ) (st : Grid2 × Grid2) : Grid2 × Grid2 :=
  [1, ny-2].foldl
    (fun st j => (List.range' 1 (nx-2)).foldl
      (fun st i => cavTopBottomBody nx ny i j st) st) st

/-- `Compute_Artificial_Viscosity(u, viscx, viscy)`: the three phases in
source order.  Returns the final `(viscx, viscy)` pair. -/
def Compute_Artificial_Viscosity (R : RealOracle) (nx ny : ℕ) (u : Grid3)
    (vx vy : Grid2) : Grid2 × Grid2 :=
  cavTopBottom nx ny (cavSides nx ny (cavStencil R nx ny u (vx, vy)))

/-! ## SGS relaxation sweeps (source lines 1038-1184).  These update the
single field `u` in place; reads go through the partially updated field
exactly as in the source (Gauss-Seidel coupling). -/

/-- Body of the forward SGS sweep at node `(i,j)` (source lines 1070-1101). -/
def sgsForwardBody (nx ny : ℕ) (viscx viscy dtA : Grid2) (s : Grid3)
    (i j : ℕ) (u : Grid3) : Grid3 :=
  let beta2 := beta2_sgs_forward (u i j 1) (u i j 2)
  let dpdx := (u (i+1) j 0 - u (i-1) j 0)/(2*dx nx)
  let dpdy := (u i (j+1) 0 - u i (j-1) 0)/(2*dy ny)
  let dudx := (u (i+1) j 1 - u (i-1) j 1)/(2*dx nx)
  let dudy := (u i (j+1) 1 - u i (j-1) 1)/(2*dy ny)
  let d2udx2 := (u (i+1) j 1 - 2*u i j 1 + u (i-1) j 1)/(dx nx * dx nx)
  let d2udy2 := (u i (j+1) 1 - 2*u i j 1 + u i (j-1) 1)/(dy ny * dy ny)
  let dvdx := (u (i+1) j 2 - u (i-1) j 2)/(2*dx nx)
  let dvdy := (u i (j+1) 2 - u i (j-1) 2)/(2*dy ny)
  let d2vdx2 := (u (i+1) j 2 - 2*u i j 2 + u (i-1) j 2)/(dx nx * dx nx)
  let d2vdy2 := (u i (j+1) 2 - 2*u i j 2 + u i (j-1) 2)/(dy ny * dy ny)
  let continuity_it_resid := rho*dudx + rho*dvdy - viscx i j - viscy i j - s i j 0
  let u0 := upd3 u i j 0 (u i j 0 - beta2 * dtA i j * continuity_it_resid)
  let xmomentum_it_resid := rho * u0 i j 1 * dudx + rho * u0 i j 2 * dudy
    + dpdx - rmu*d2udx2 - rmu*d2udy2 - s i j 1
  let u1 := upd3 u0 i j 1 (u0 i j 1 - dtA i j * rhoinv * xmomentum_it_resid)
  let ymomentum_it_resid := rho * u1 i j 1 * dvdx + rho * u1 i j 2 * dvdy
    + dpdy - rmu*d2vdx2 - rmu*d2vdy2 - s i j 2
  upd3 u1 i j 2 (u1 i j 2 - dtA i j * rhoinv * ymomentum_it_resid)

/-- Body of the backward SGS sweep at node `(i,j)` (source lines 1145-1177),
textually identical to the forward body. -/
def sgsBackwardBody (nx ny : ℕ) (viscx viscy dtA : Grid2) (s : Grid3)
    (i j : ℕ) (u : Grid3) : Grid3 :=
  let beta2 := beta2_sgs_backward (u i j 1) (u i j 2)
  let dpdx := (u (i+1) j 0 - u (i-1) j 0)/(2*dx nx)
  let dpdy := (u i (j+1) 0 - u i (j-1) 0)/(2*dy ny)
  let dudx := (u (i+1) j 1 - u (i-1) j 1)/(2*dx nx)
  let dudy := (u i (j+1) 1 - u i (j-1) 1)/(2*dy ny)
  let d2udx2 := (u (i+1) j 1 - 2*u i j 1 + u (i-1) j 1)/(dx nx * dx nx)
  let d2udy2 := (u i (j+1) 1 - 2*u i j 1 + u i (j-1) 1)/(dy ny * dy ny)
  let dvdx := (u (i+1) j 2 - u (i-1) j 2)/(2*dx nx)
  let dvdy := (u i (j+1) 2 - u i (j-1) 2)/(2*dy ny)
  let d2vdx2 := (u (i+1) j 2 - 2*u i j 2 + u (i-1) j 2)/(dx nx * dx nx)
  let d2vdy2 := (u i (j+1) 2 - 2*u i j 2 + u i (j-1) 2)/(dy ny * dy ny)
  let continuity_it_resid := rho*dudx + rho*dvdy - viscx i j - viscy i j - s i j 0
  let u0 := upd3 u i j 0 (u i j 0 - beta2 * dtA i j * continuity_it_resid)
  let xmomentum_it_resid := rho * u0 i j 1 * dudx + rho * u0 i j 2 * dudy
    + dpdx - rmu*d2udx2 - rmu*d2udy2 - s i j 1
  let u1 := upd3 u0 i j 1 (u0 i j 1 - dtA i j * rhoinv * xmomentum_it_resid)
  let ymomentum_it_resid := rho * u1 i j 1 * dvdx + rho * u1 i j 2 * dvdy
    + dpdy - rmu*d2vdx2 - rmu*d2vdy2 - s i j 2
  upd3 u1 i j 2 (u1 i j 2 - dtA i j * rhoinv * ymomentum_it_resid)

/-- `SGS_forward_sweep`: `for(j=1..jmax-2) for(i=1..imax-2)` in increasing
order, in place on `u`. -/
def SGS_forward_sweep (nx ny : ℕ) (u : Grid3) (viscx viscy dtA : Grid2)
    (s : Grid3) : Grid3 :=
  (List.range' 1 (ny-2)).foldl
    (fun U j => (List.range' 1 (nx-2)).foldl
      (fun U i => sgsForwardBody nx ny viscx viscy dtA s i j U) U) u

/-- `SGS_backward_sweep`: `for(j=jmax-2..1) for(i=imax-2..1)` in decreasing
order, in place on `u`. -/
def SGS_backward_sweep (nx ny : ℕ) (u : Grid3) (viscx viscy dtA : Grid2)
    (s : Grid3) : Grid3 :=
  ((List.range' 1 (ny-2)).reverse).foldl
    (fun U j => ((List.range' 1 (nx-2)).reverse).foldl
      (fun U i => sgsBackwardBody nx ny viscx viscy dtA s i j U) U) u

/-! ## Point-Jacobi sweep (function `point_Jacobi`, source lines 1188-1257) -/

/-- Body of the point-Jacobi loop at node `(i,j)` (source lines 1224-1247).
All finite-difference reads are from `uold`; the velocities feeding
`uvel2`/`beta2` are read from `u` (source line 1239), before any write to
node `(i,j)`; the three writes go to `u`. -/
def pjBody (nx ny : ℕ) (uold : Grid3) (viscx viscy dtA : Grid2) (s : Grid3)
    (i j : ℕ) (u : Grid3) : Grid3 :=
  let dpdx := (uold (i+1) j 0 - uold (i-1) j 0)/(2*dx nx)
  let dpdy := (uold i (j+1) 0 - uold i (j-1) 0)/(2*dy ny)
  let dudx := (uold (i+1) j 1 - uold (i-1) j 1)/(2*dx nx)
  let dudy := (uold i (j+1) 1 - uold i (j-1) 1)/(2*dy ny)
  let dvdx := (uold (i+1) j 2 - uold (i-1) j 2)/(2*dx nx)
  let dvdy := (uold i (j+1) 2 - uold i (j-1) 2)/(2*dy ny)
  let d2udx2 := (uold (i+1) j 1 - 2*uold i j 1 + uold (i-1) j 1)/pow2 (dx nx)
  let d2udy2 := (uold i (j+1) 1 - 2*uold i j 1 + uold i (j-1) 1)/pow2 (dy ny)
  let d2vdx2 := (uold (i+1) j 2 - 2*uold i j 2 + uold (i-1) j 2)/pow2 (dx nx)
  let d2vdy2 := (uold i (j+1) 2 - 2*uold i j 2 + uold i (j-1) 2)/pow2 (dy ny)
  let beta2 := beta2_point_jacobi (u i j 1) (u i j 2)
  let u0 := upd3 u i j 0 (uold i j 0
    - beta2 * dtA i j * (rho*dudx + rho*dvdy - viscx i j - viscy i j - s i j 0))
  let u1 := upd3 u0 i j 1 (uold i j 1
    - dtA i j * rhoinv * (rho*uold i j 1*dudx + rho*uold i j 2*dudy
      + dpdx - rmu*d2udx2 - rmu*d2udy2 - s i j 1))
  upd3 u1 i j 2 (uold i j 2
    - dtA i j * rhoinv * (rho*uold i j 1*dvdx + rho*uold i j 2*dvdy
      + dpdy - rmu*d2vdx2 - rmu*d2vdy2 - s i j 2))

/-- `point_Jacobi(u, uold, viscx, viscy, dt, s)`:
`for(i=1..imax-2) for(j=1..jmax-2)` applying `pjBody`, in place on `u`. -/
def point_Jacobi (nx ny : ℕ) (u uold : Grid3) (viscx viscy dtA : Grid2)
    (s : Grid3) : Grid3 :=
  foldNodes (pjBody nx ny uold viscx viscy dtA s) (interiorNodes nx ny) u

/-- Refinement comparison definition following the words of the spec and of
claim C2 (point-Jacobi reads every quantity, including the preconditioning
velocities, exclusively from `uold`): identical to `pjBody` except that
`beta2` is computed from `uold(i,j,1)` and `uold(i,j,2)`. -/
def pjBodySpecRead (nx ny : ℕ) (uold : Grid3) (viscx viscy dtA : Grid2) (s : Grid3)
    (i j : ℕ) (u : Grid3) : Grid3 :=
  let dpdx := (uold (i+1) j 0 - uold (i-1) j 0)/(2*dx nx)
  let dpdy := (uold i (j+1) 0 - uold i (j-1) 0)/(2*dy ny)
  let dudx := (uold (i+1) j 1 - uold (i-1) j 1)/(2*dx nx)
  let dudy := (uold i (j+1) 1 - uold i (j-1) 1)/(2*dy ny)
  let dvdx := (uold (i+1) j 2 - uold (i-1) j 2)/(2*dx nx)
  let dvdy := (uold i (j+1) 2 - uold i (j-1) 2)/(2*dy ny)
  let d2udx2 := (uold (i+1) j 1 - 2*uold i j 1 + uold (i-1) j 1)/pow2 (dx nx)
  let d2udy2 := (uold i (j+1) 1 - 2*uold i j 1 + uold i (j-1) 1)/pow2 (dy ny)
  let d2vdx2 := (uold (i+1) j 2 - 2*uold i j 2 + uold (i-1) j 2)/pow2 (dx nx)
  let d2vdy2 := (uold i (j+1) 2 - 2*uold i j 2 + uold i (j-1) 2)/pow2 (dy ny)
  let beta2 := beta2_point_jacobi (uold i j 1) (uold i j 2)
  let u0 := upd3 u i j 0 (uold i j 0
    - beta2 * dtA i j * (rho*dudx + rho*dvdy - viscx i j - viscy i j - s i j 0))
  let u1 := upd3 u0 i j 1 (uold i j 1
    - dtA i j * rhoinv * (rho*uold i j 1*dudx + rho*uold i j 2*dudy
      + dpdx - rmu*d2udx2 - rmu*d2udy2 - s i j 1))
  upd3 u1 i j 2 (uold i j 2
    - dtA i j * rhoinv * (rho*uold i j 1*dvdx + rho*uold i j 2*dvdy
      + dpdy - rmu*d2vdx2 - rmu*d2vdy2 - s i j 2))

/-- The point-Jacobi sweep as the spec describes it (read side `uold`
throughout). -/
def point_Jacobi_specRead (nx ny : ℕ) (u uold : Grid3) (viscx viscy dtA : Grid2)
    (s : Grid3) : Grid3 :=
  foldNodes (pjBodySpecRead nx ny uold viscx viscy dtA s) (interiorNodes nx ny) u

/-! ## Manufactured solution oracle (function `umms`, source lines 680-710) -/

/-- MMS constant `phi0`. -/
def phi0 (k : ℕ) : ℚ := if k = 0 then 1/4 else if k = 1 then 3/10 else 1/5

/-- MMS amplitude constant `phix`. -/
def phix (k : ℕ) : ℚ := if k = 0 then 1/2 else if k = 1 then 3/20 else 1/6

/-- MMS amplitude constant `phiy`. -/
def phiy (k : ℕ) : ℚ := if k = 0 then 2/5 else if k = 1 then 1/5 else 1/4

/-- MMS amplitude constant `phixy`. -/
def phixy (k : ℕ) : ℚ := if k = 0 then 1/3 else if k = 1 then 1/4 else 1/10

/-- MMS frequency constant `apx`. -/
def apx (k : ℕ) : ℚ := if k = 0 then 1/2 else if k = 1 then 1/3 else 7/17

/-- MMS frequency constant `apy`. -/
def apy (k : ℕ) : ℚ := if k = 0 then 1/5 else if k = 1 then 1/4 else 1/6

/-- MMS frequency constant `apxy`. -/
def apxy (k : ℕ) : ℚ := if k = 0 then 2/7 else if k = 1 then 2/5 else 1/3

/-- MMS sine-vs-cosine selector `fsinx`. -/
def fsinx (k : ℕ) : ℚ := if k = 1 then 1 else 0

/-- MMS sine-vs-cosine selector `fsiny`. -/
def fsiny (k : ℕ) : ℚ := if k = 0 then 1 else 0

/-- MMS sine-vs-cosine selector `fsinxy`. -/
def fsinxy (k : ℕ) : ℚ := if k = 0 then 1 else if k = 1 then 1 else 0

/-- `umms(x, y, k)`: the MMS exact solution (source lines 680-710), with
`sin`, `cos` and `rpi` taken from the oracle. -/
def umms (R : RealOracle) (x y : ℚ) (k : ℕ) : ℚ :=
  let argx := apx k * R.rpiQ * x / rlength
  let argy := apy k * R.rpiQ * y / rlength
  let argxy := apxy k * R.rpiQ * x * y / rlength / rlength
  let termx := phix k * (fsinx k * R.sinQ argx + (1 - fsinx k) * R.cosQ argx)
  let termy := phiy k * (fsiny k * R.sinQ argy + (1 - fsiny k) * R.cosQ argy)
  let termxy := phixy k * (fsinxy k * R.sinQ argxy + (1 - fsinxy k) * R.cosQ argxy)
  phi0 k + termx + termy + termxy

/-- Node x coordinate `x = (xmax - xmin)*i/(imax - 1)` as used throughout
the source. -/
def xcoord (nx i : ℕ) : ℚ := (xmax - xmin)*(i : ℚ)/((nx : ℚ) - 1)

/-- Node y coordinate `y = (ymax - ymin)*j/(jmax - 1)`. -/
def ycoord (ny j : ℕ) : ℚ := (ymax - ymin)*(j : ℚ)/((ny : ℚ) - 1)

/-! ## Pressure anchor (function `pressure_rescaling`, source lines 1263-1297) -/

/-- The reference pressure the anchor targets: the MMS exact pressure at the
center node when `imms == 1`, otherwise `pinf`. -/
def referencePressure (R : RealOracle) (imms : ℕ) (nx ny : ℕ) : ℚ :=
  let iref := (nx-1)/2
  let jref := (ny-1)/2
  if imms = 1 then umms R (xcoord nx iref) (ycoord ny jref) 0 else pinf

/-- `deltap` as computed by `pressure_rescaling` before its loop:
`u(iref,jref,0) - reference`. -/
def deltapOf (R : RealOracle) (imms : ℕ) (nx ny : ℕ) (u : Grid3) : ℚ :=
  u ((nx-1)/2) ((ny-1)/2) 0 - referencePressure R imms nx ny

/-- `pressure_rescaling(u)`: `for(i=0..imax-1) for(j=0..jmax-1)`
`u(i,j,0) -= deltap`. -/
def pressure_rescaling (R : RealOracle) (imms : ℕ) (nx ny : ℕ) (u : Grid3) : Grid3 :=
  let deltap := deltapOf R imms nx ny u
  foldNodes (fun i j U => upd3 U i j 0 (U i j 0 - deltap)) (allNodes nx ny) u

/-! ## Convergence monitor (function `check_iterative_convergence`,
source lines 1301-1396).  The file-output tail of the function is external
I/O and is not part of the embedding. -/

/-- The continuity iterative residual at a node (source line 1346):
`(u - uold) / (-beta2*dt)`, with `beta2` from the new field `u`. -/
def residCont (u uold : Grid3) (dtA : Grid2) (i j : ℕ) : ℚ :=
  (u i j 0 - uold i j 0) / (-(beta2_convergence (u i j 1) (u i j 2)) * dtA i j)

/-- The x-momentum iterative residual at a node (source line 1352):
`-rho*(u - uold)/dt`. -/
def residXmtm (u uold : Grid3) (dtA : Grid2) (i j : ℕ) : ℚ :=
  -rho*(u i j 1 - uold i j 1) / dtA i j

/-- The y-momentum iterative residual at a node (source line 1356). -/
def residYmtm (u uold : Grid3) (dtA : Grid2) (i j : ℕ) : ℚ :=
  -rho*(u i j 2 - uold i j 2) / dtA i j

/-- Body of the inner `for(k=0;k<neq;k++)` loop (source lines 1333-1361):
select the local residual by `k` and accumulate `res[k] += pow2(fabs(r))`.
The final `else` value is unreachable since the loop runs `k = 0,1,2`. -/
def convKBody (u uold : Grid3) (dtA : Grid2) (i j : ℕ) (res : ℕ → ℚ) (k : ℕ) :
    ℕ → ℚ :=
  let local_resid :=
    if k = 0 then residCont u uold dtA i j
    else if k = 1 then residXmtm u uold dtA i j
    else if k = 2 then residYmtm u uold dtA i j
    else 0
  upd1 res k (res k + pow2 |local_resid|)

/-- The `k` loop at one node. -/
def convNodeBody (u uold : Grid3) (dtA : Grid2) (i j : ℕ) (res : ℕ → ℚ) : ℕ → ℚ :=
  (List.range 3).foldl (convKBody u uold dtA i j) res

/-- `check_iterative_convergence`: reset `res` to zero, accumulate squared
residuals over interior nodes (`for(i=1..imax-2) for(j=1..jmax-2)`), take
the three norms, form `L2Norminit` from `resinit[0]` alone, and return
`(res, conv)`. -/
def check_iterative_convergence (R : RealOracle) (nx ny : ℕ) (u uold : Grid3)
    (dtA : Grid2) (resinit : ℕ → ℚ) : (ℕ → ℚ) × ℚ :=
  let res0 : ℕ → ℚ := fun _ => 0
  let acc := (interiorNodes nx ny).foldl
    (fun r p => convNodeBody u uold dtA p.1 p.2 r) res0
  let res1 := upd1 acc 0 (R.sqrtQ (acc 0 / ((nx*ny : ℕ) : ℚ)))
  let res2 := upd1 res1 1 (R.sqrtQ (res1 1 / ((nx*ny : ℕ) : ℚ)))
  let res3 := upd1 res2 2 (R.sqrtQ (res2 2 / ((nx*ny : ℕ) : ℚ)))
  let L2Norminit := R.sqrtQ (pow2 (resinit 0) / ((nx*ny : ℕ) : ℚ))
  (res3, max (res3 0) (max (res3 1) (res3 2)) / L2Norminit)

/-! ## Cavity-wall boundary applier (function `bndry`, source lines 482-541) -/

/-- Body of the first `bndry` loop (left/right walls) at column row `j`
(source lines 501-518), with the six assignments in source order. -/
def bndryLRBody (nx : ℕ) (j : ℕ) (u : Grid3) : Grid3 :=
  let u1 := upd3 u 0 j 1 0
  let u2 := upd3 u1 0 j 2 0
  let u3 := upd3 u2 (nx-1) j 1 0
  let u4 := upd3 u3 (nx-1) j 2 0
  let u5 := upd3 u4 (nx-1) j 0 (2 * u4 (nx-2) j 0 - u4 (nx-3) j 0)
  upd3 u5 0 j 0 (2 * u5 1 j 0 - u5 2 j 0)

/-- The first `bndry` loop, `for(j=0;j<jmax;j++)`, generalized over the
trip count `m` (instantiated at `m = jmax`). -/
def bndryLRAux (nx m : ℕ) (u : Grid3) : Grid3 :=
  (List.range m).foldl (fun U j => bndryLRBody nx j U) u

/-- Body of the second `bndry` loop (bottom wall then lid) at column `i`
(source lines 521-539), with the six assignments in source order. -/
def bndryTBBody (ny : ℕ) (i : ℕ) (u : Grid3) : Grid3 :=
  let u1 := upd3 u i 0 1 0
  let u2 := upd3 u1 i 0 2 0
  let u3 := upd3 u2 i 0 0 (2 * u2 i 1 0 - u2 i 2 0)
  let u4 := upd3 u3 i (ny-1) 1 uinf
  let u5 := upd3 u4 i (ny-1) 2 0
  upd3 u5 i (ny-1) 0 (2 * u5 i (ny-2) 0 - u5 i (ny-3) 0)

/-- The second `bndry` loop, `for(i=1;i<imax-1;i++)`, generalized over the
trip count `m` (instantiated at `m = imax-2`). -/
def bndryTBAux (ny m : ℕ) (u : Grid3) : Grid3 :=
  (List.range' 1 m).foldl (fun U i => bndryTBBody ny i U) u

/-- `bndry(u)`: the left/right pass followed by the bottom/top pass. -/
def bndry (nx ny : ℕ) (u : Grid3) : Grid3 :=
  bndryTBAux ny (nx-2) (bndryLRAux nx ny u)

/-! ## MMS boundary applier (function `bndrymms`, source lines 545-605) -/

/-- Body of the `bndrymms` side-wall loop at row `j` (source lines 561-581):
exact values on both side walls, each followed by the 2nd-order pressure
extrapolation that overwrites the exact pressure. -/
def bndrymmsSWBody (R : RealOracle) (nx ny : ℕ) (j : ℕ) (u : Grid3) : Grid3 :=
  let y := ycoord ny j
  let u1 := upd3 u 0 j 0 (umms R xmin y 0)
  let u2 := upd3 u1 0 j 1 (umms R xmin y 1)
  let u3 := upd3 u2 0 j 2 (umms R xmin y 2)
  let u4 := upd3 u3 0 j 0 (2 * u3 1 j 0 - u3 2 j 0)
  let u5 := upd3 u4 (nx-1) j 0 (umms R xmax y 0)
  let u6 := upd3 u5 (nx-1) j 1 (umms R xmax y 1)
  let u7 := upd3 u6 (nx-1) j 2 (umms R xmax y 2)
  upd3 u7 (nx-1) j 0 (2 * u7 (nx-2) j 0 - u7 (nx-3) j 0)

/-- The `bndrymms` side-wall loop, `for(j=1;j<jmax-1;j++)`, generalized over
the trip count `m` (instantiated at `m = jmax-2`). -/
def bndrymmsSWAux (R : RealOracle) (nx ny m : ℕ) (u : Grid3) : Grid3 :=
  (List.range' 1 m).foldl (fun U j => bndrymmsSWBody R nx ny j U) u

/-- Body of the `bndrymms` top/bottom loop at column `i`
(source lines 584-604). -/
def bndrymmsTBBody (R : RealOracle) (nx ny : ℕ) (i : ℕ) (u : Grid3) : Grid3 :=
  let x := xcoord nx i
  let u1 := upd3 u i 0 0 (umms R x ymin 0)
  let u2 := upd3 u1 i 0 1 (umms R x ymin 1)
  let u3 := upd3 u2 i 0 2 (umms R x ymin 2)
  let u4 := upd3 u3 i 0 0 (2 * u3 i 1 0 - u3 i 2 0)
  let u5 := upd3 u4 i (ny-1) 0 (umms R x ymax 0)
  let u6 := upd3 u5 i (ny-1) 1 (umms R x ymax 1)
  let u7 := upd3 u6 i (ny-1) 2 (umms R x ymax 2)
  upd3 u7 i (ny-1) 0 (2 * u7 i (ny-2) 0 - u7 i (ny-3) 0)

/-- The `bndrymms` top/bottom loop, `for(i=0;i<imax;i++)`, generalized over
the trip count `m` (instantiated at `m = imax`). -/
def bndrymmsTBAux (R : RealOracle) (nx ny m : ℕ) (u : Grid3) : Grid3 :=
  (List.range m).foldl (fun U i => bndrymmsTBBody R nx ny i U) u

/-- `bndrymms(u)`: the side-wall pass followed by the top/bottom pass. -/
def bndrymms (R : RealOracle) (nx ny : ℕ) (u : Grid3) : Grid3 :=
  bndrymmsTBAux R nx ny nx (bndrymmsSWAux R nx ny (ny-2) u)

/-! ## Iteration drivers (functions `GS_iteration` and `PJ_iteration`,
source lines 327-366).  Each returns the new `(u, uold)` pair; the
boundary applier is a function parameter, as in the source
(`boundaryConditionPointer`). -/

/-- `GS_iteration`: copy `u` into `uold`, recompute dissipation, forward
sweep, boundary conditions, recompute dissipation, backward sweep,
boundary conditions. -/
def GS_iteration (R : RealOracle) (nx ny : ℕ) (bc : Grid3 → Grid3)
    (u uold src : Grid3) (viscx viscy dtA : Grid2) : Grid3 × Grid3 :=
  let uold1 := u
  let st1 := Compute_Artificial_Viscosity R nx ny u viscx viscy
  let u1 := SGS_forward_sweep nx ny u st1.1 st1.2 dtA src
  let u2 := bc u1
  let st2 := Compute_Artificial_Viscosity R nx ny u2 st1.1 st1.2
  let u3 := SGS_backward_sweep nx ny u2 st2.1 st2.2 dtA src
  (bc u3, uold1)

/-- `PJ_iteration`: swap the `u` and `uold` storages (modeled functionally:
after the swap the name `uold` holds the incoming `u` contents and vice
versa), recompute dissipation from the post-swap `uold`, one point-Jacobi
pass writing into the post-swap `u`, then boundary conditions. -/
def PJ_iteration (R : RealOracle) (nx ny : ℕ) (bc : Grid3 → Grid3)
    (u uold src : Grid3) (viscx viscy dtA : Grid2) : Grid3 × Grid3 :=
  let u1 := uold
  let uold1 := u
  let st := Compute_Artificial_Viscosity R nx ny uold1 viscx viscy
  let u2 := point_Jacobi nx ny u1 uold1 st.1 st.2 dtA src
  (bc u2, uold1)

/-! ## C1: the preconditioning parameter at its five sites -/

/-- C1: at every interior node, in the time-step estimator, in both SGS
relaxation sweeps, in the point-Jacobi sweep, and in the convergence
monitor continuity residual, the preconditioning parameter beta-squared
equals `max(u^2 + v^2, rkappa*Uref^2)` with `Uref` the lid velocity
`uinf`.  (Four of the five sites literally compute `fmax(uvel2,
rkappa*uinf)` and the point-Jacobi site computes `fmax(uvel2,
rkappa*vel2ref)`; all five agree with the claim because `uinf = 1`, so
`uinf = uinf^2 = vel2ref`.) -/
theorem claim_C1 (uv vv : ℚ) :
    beta2_time_step uv vv = max (uv^2 + vv^2) (rkappa * uinf^2)
    ∧ beta2_sgs_forward uv vv = max (uv^2 + vv^2) (rkappa * uinf^2)
    ∧ beta2_sgs_backward uv vv = max (uv^2 + vv^2) (rkappa * uinf^2)
    ∧ beta2_point_jacobi uv vv = max (uv^2 + vv^2) (rkappa * uinf^2)
    ∧ beta2_convergence uv vv = max (uv^2 + vv^2) (rkappa * uinf^2) := by
  unfold beta2_time_step beta2_sgs_forward beta2_sgs_backward
    beta2_point_jacobi beta2_convergence pow2 vel2ref rkappa uinf
  norm_num [sq]

/-! ## Pressure anchor: evaluation lemma, C5 and C10 -/

theorem pressure_rescaling_eval (R : RealOracle) (imms nx ny : ℕ) (u : Grid3)
    (a b c : ℕ) :
    pressure_rescaling R imms nx ny u a b c =
      if (a < nx ∧ b < ny) ∧ c = 0 then u a b 0 - deltapOf R imms nx ny u
      else u a b c := by
  unfold pressure_rescaling allNodes
  rw [foldNodes_eval _ ?_ ?_ _ (nodup_nodeSeq 0 nx 0 ny) u a b c]
  · have hmem := mem_nodeSeq 0 nx 0 ny a b
    by_cases hab : a < nx ∧ b < ny
    · rw [if_pos (hmem.mpr (by omega))]
      by_cases hc : c = 0
      · subst hc
        rw [if_pos ⟨hab, rfl⟩]
        simp [upd3_eval]
      · rw [if_neg (by tauto)]
        simp [upd3_eval, hc]
    · rw [if_neg (fun h => hab (by have := hmem.mp h; omega)), if_neg (by tauto)]
  · intro i j U a b c h
    simp only [upd3_eval]
    rw [if_neg (by tauto)]
  · intro i j U V h c
    simp only [upd3_eval, h 0]
    split_ifs with hc
    · rfl
    · exact h c

/-- C5: immediately after the pressure anchor runs, the pressure at the
center node `((nx-1)/2, (ny-1)/2)` equals the reference pressure (the MMS
exact pressure at the center when `imms = 1`, otherwise the input constant
`pinf`) exactly, in exact arithmetic, because the same
`deltap = u(center) - reference` is subtracted from every pressure. -/
theorem claim_C5 (R : RealOracle) (imms nx ny : ℕ) (u : Grid3)
    (hnx : 0 < nx) (hny : 0 < ny) :
    pressure_rescaling R imms nx ny u ((nx-1)/2) ((ny-1)/2) 0
      = referencePressure R imms nx ny := by
  rw [pressure_rescaling_eval]
  rw [if_pos ⟨⟨by omega, by omega⟩, rfl⟩]
  unfold deltapOf
  ring

/-- C5 witness: the theorem applied on a concrete 5-by-5 grid with a
concrete field, in the non-MMS branch. -/
theorem claim_C5_witness :
    0 < 5 ∧ pressure_rescaling oid 0 5 5 (fun a b c => (a : ℚ) + b + c) 2 2 0
      = referencePressure oid 0 5 5 :=
  ⟨by norm_num, claim_C5 oid 0 5 5 (fun a b c => (a : ℚ) + b + c)
    (by norm_num) (by norm_num)⟩

/-- C10: pressure rescaling leaves both velocity components of every node
unchanged, subtracts the single constant `deltap` from the pressure of
every in-grid node, and therefore preserves all pairwise in-grid pressure
differences exactly (in exact arithmetic). -/
theorem claim_C10 (R : RealOracle) (imms nx ny : ℕ) (u : Grid3) :
    (∀ a b, pressure_rescaling R imms nx ny u a b 1 = u a b 1
      ∧ pressure_rescaling R imms nx ny u a b 2 = u a b 2)
    ∧ (∀ a b, a < nx → b < ny →
        pressure_rescaling R imms nx ny u a b 0
          = u a b 0 - deltapOf R imms nx ny u)
    ∧ (∀ a b a2 b2, a < nx → b < ny → a2 < nx → b2 < ny →
        pressure_rescaling R imms nx ny u a b 0
          - pressure_rescaling R imms nx ny u a2 b2 0
          = u a b 0 - u a2 b2 0) := by
  refine ⟨fun a b => ⟨?_, ?_⟩, fun a b h1 h2 => ?_, fun a b a2 b2 h1 h2 h3 h4 => ?_⟩
  · rw [pressure_rescaling_eval, if_neg (by omega)]
  · rw [pressure_rescaling_eval, if_neg (by omega)]
  · rw [pressure_rescaling_eval, if_pos ⟨⟨h1, h2⟩, rfl⟩]
  · rw [pressure_rescaling_eval, pressure_rescaling_eval,
      if_pos ⟨⟨h1, h2⟩, rfl⟩, if_pos ⟨⟨h3, h4⟩, rfl⟩]
    ring

/-- C10 witness: the theorem applied on a concrete 5-by-5 grid. -/
theorem claim_C10_witness :
    (2 : ℕ) < 5 ∧ pressure_rescaling oid 0 5 5 (fun a b c => (a : ℚ) + b + c) 2 3 0
      = (fun a b c => (a : ℚ) + b + c) 2 3 0 - deltapOf oid 0 5 5 (fun a b c => (a : ℚ) + b + c) :=
  ⟨by norm_num, (claim_C10 oid 0 5 5 (fun a b c => (a : ℚ) + b + c)).2.1 2 3
    (by norm_num) (by norm_num)⟩

/-! ## Time-step estimator: C6 -/

theorem nodeSeq_concat (li lj ni nj : ℕ) :
    nodeSeq li (ni+1) lj (nj+1) =
      (nodeSeq li ni lj (nj+1)
        ++ (List.range' lj nj).map fun j => (li+ni, j))
        ++ [(li+ni, lj+nj)] := by
  unfold nodeSeq
  rw [List.range'_1_concat, List.flatMap_append]
  simp only [List.flatMap_cons, List.flatMap_nil, List.append_nil]
  rw [List.range'_1_concat, List.map_append]
  simp [List.append_assoc]

/-- C6: after the time-step estimator runs, the returned scalar `dtmin`
holds the local step value `cfl*fmin(dtconv, dtvisc)` evaluated at the
last interior node visited by the loop, `(nx-2, ny-2)`, not a minimum over
the grid. -/
theorem claim_C6 (R : RealOracle) (nx ny : ℕ) (u : Grid3) (dtA : Grid2)
    (dtmin0 : ℚ) (hnx : 3 ≤ nx) (hny : 3 ≤ ny) :
    (compute_time_step R nx ny u dtA dtmin0).2 = localDt R nx ny u (nx-2) (ny-2) := by
  unfold compute_time_step
  have h : interiorNodes nx ny =
      (nodeSeq 1 (nx-3) 1 (ny-2)
        ++ (List.range' 1 (ny-3)).map fun j => (1+(nx-3), j))
        ++ [(1+(nx-3), 1+(ny-3))] := by
    unfold interiorNodes
    rw [show nx - 2 = (nx-3)+1 by omega, show ny - 2 = (ny-3)+1 by omega,
      nodeSeq_concat]
  rw [h, List.foldl_append, List.foldl_cons, List.foldl_nil]
  show localDt R nx ny u (1+(nx-3)) (1+(ny-3)) = _
  rw [show 1+(nx-3) = nx-2 by omega, show 1+(ny-3) = ny-2 by omega]

/-- C6 witness: the theorem applied on a concrete 3-by-3 grid, where the
single interior node `(1,1)` is also the last node visited. -/
theorem claim_C6_witness :
    3 ≤ 3 ∧ (compute_time_step oid 3 3 (fun _ _ _ => 0) (fun _ _ => 0) 99).2
      = localDt oid 3 3 (fun _ _ _ => 0) 1 1 :=
  ⟨by norm_num, claim_C6 oid 3 3 (fun _ _ _ => 0) (fun _ _ => 0) 99
    (by norm_num) (by norm_num)⟩

/-! ## Convergence monitor: C4 -/

theorem pow2_abs (x : ℚ) : pow2 |x| = x^2 := by
  rw [pow2, abs_mul_abs_self, sq]

/-- Sum of a per-node quantity over a node list, in loop order. -/
def sumOverNodes : List (ℕ × ℕ) → (ℕ → ℕ → ℚ) → ℚ
  | [], _ => 0
  | p :: t, f => f p.1 p.2 + sumOverNodes t f

theorem foldl_add_eq_sumOverNodes (L : List (ℕ × ℕ)) (f : ℕ → ℕ → ℚ) (x : ℚ) :
    L.foldl (fun acc p => acc + f p.1 p.2) x = x + sumOverNodes L f := by
  induction L generalizing x with
  | nil => simp [sumOverNodes]
  | cons p t ih =>
    rw [List.foldl_cons, ih, sumOverNodes]
    ring

theorem convNodeBody_eval (u uold : Grid3) (dtA : Grid2) (i j : ℕ)
    (res : ℕ → ℚ) (n : ℕ) :
    convNodeBody u uold dtA i j res n =
      if n = 0 then res 0 + (residCont u uold dtA i j)^2
      else if n = 1 then res 1 + (residXmtm u uold dtA i j)^2
      else if n = 2 then res 2 + (residYmtm u uold dtA i j)^2
      else res n := by
  have hr : List.range 3 = [0, 1, 2] := rfl
  unfold convNodeBody convKBody
  rw [hr, List.foldl_cons, List.foldl_cons, List.foldl_cons, List.foldl_nil]
  simp only [upd1_eval, pow2_abs]
  norm_num
  split_ifs <;> first | rfl | omega

theorem conv_fold_eval (u uold : Grid3) (dtA : Grid2) (L : List (ℕ × ℕ))
    (res0 : ℕ → ℚ) (n : ℕ) :
    (L.foldl (fun r p => convNodeBody u uold dtA p.1 p.2 r) res0) n =
      res0 n +
        (if n = 0 then sumOverNodes L (fun i j => (residCont u uold dtA i j)^2)
        else if n = 1 then sumOverNodes L (fun i j => (residXmtm u uold dtA i j)^2)
        else if n = 2 then sumOverNodes L (fun i j => (residYmtm u uold dtA i j)^2)
        else 0) := by
  induction L generalizing res0 with
  | nil => split_ifs <;> simp [sumOverNodes]
  | cons p t ih =>
    rw [List.foldl_cons, ih, convNodeBody_eval]
    split_ifs with h0 h1 h2
    · subst h0; rw [sumOverNodes]; ring
    · subst h1; rw [sumOverNodes]; ring
    · subst h2; rw [sumOverNodes]; ring
    · rfl

/-- C4: after the convergence monitor runs, each `res[k]` equals the square
root of the sum over interior nodes of the squared per-equation residual,
divided by `nx*ny`; the convergence ratio is `max(res[0],res[1],res[2])`
divided by a norm formed from `resinit[0]` alone, and the values of
`resinit[1]` and `resinit[2]` do not influence the ratio. -/
theorem claim_C4 (R : RealOracle) (nx ny : ℕ) (u uold : Grid3) (dtA : Grid2)
    (resinit : ℕ → ℚ) (q1 q2 : ℚ) :
    ((check_iterative_convergence R nx ny u uold dtA resinit).1 0
        = R.sqrtQ (sumOverNodes (interiorNodes nx ny)
            (fun i j => (residCont u uold dtA i j)^2) / ((nx*ny : ℕ) : ℚ))
      ∧ (check_iterative_convergence R nx ny u uold dtA resinit).1 1
        = R.sqrtQ (sumOverNodes (interiorNodes nx ny)
            (fun i j => (residXmtm u uold dtA i j)^2) / ((nx*ny : ℕ) : ℚ))
      ∧ (check_iterative_convergence R nx ny u uold dtA resinit).1 2
        = R.sqrtQ (sumOverNodes (interiorNodes nx ny)
            (fun i j => (residYmtm u uold dtA i j)^2) / ((nx*ny : ℕ) : ℚ)))
    ∧ (check_iterative_convergence R nx ny u uold dtA resinit).2
        = max ((check_iterative_convergence R nx ny u uold dtA resinit).1 0)
            (max ((check_iterative_convergence R nx ny u uold dtA resinit).1 1)
              ((check_iterative_convergence R nx ny u uold dtA resinit).1 2))
          / R.sqrtQ (pow2 (resinit 0) / ((nx*ny : ℕ) : ℚ))
    ∧ (check_iterative_convergence R nx ny u uold dtA resinit).2
        = (check_iterative_convergence R nx ny u uold dtA
            (fun n => if n = 0 then resinit 0 else if n = 1 then q1 else q2)).2 := by
  unfold check_iterative_convergence
  simp only [upd1_eval, conv_fold_eval]
  norm_num

/-! ## Point-Jacobi sweep: evaluation lemma and C2 -/

theorem pjBody_frame (nx ny : ℕ) (uold : Grid3) (vx vy dtA : Grid2) (s : Grid3)
    (i j : ℕ) (U : Grid3) (a b c : ℕ) (h : ¬(a = i ∧ b = j)) :
    pjBody nx ny uold vx vy dtA s i j U a b c = U a b c := by
  simp only [pjBody, upd3_eval]
  rw [if_neg (by tauto), if_neg (by tauto), if_neg (by tauto)]

theorem pjBody_read (nx ny : ℕ) (uold : Grid3) (vx vy dtA : Grid2) (s : Grid3)
    (i j : ℕ) (U V : Grid3) (h : ∀ c, U i j c = V i j c) :
    ∀ c, pjBody nx ny uold vx vy dtA s i j U i j c
      = pjBody nx ny uold vx vy dtA s i j V i j c := by
  intro c
  simp only [pjBody, upd3_eval, h]

theorem point_Jacobi_eval (nx ny : ℕ) (u uold : Grid3) (vx vy dtA : Grid2)
    (s : Grid3) (a b c : ℕ) :
    point_Jacobi nx ny u uold vx vy dtA s a b c =
      if (a, b) ∈ interiorNodes nx ny
      then pjBody nx ny uold vx vy dtA s a b u a b c
      else u a b c := by
  unfold point_Jacobi
  exact foldNodes_eval _
    (fun i j U a b c h => pjBody_frame nx ny uold vx vy dtA s i j U a b c h)
    (fun i j U V h c => pjBody_read nx ny uold vx vy dtA s i j U V h c)
    _ (nodup_nodeSeq 1 (nx-2) 1 (ny-2)) u a b c

theorem pjBodySpecRead_frame (nx ny : ℕ) (uold : Grid3) (vx vy dtA : Grid2)
    (s : Grid3) (i j : ℕ) (U : Grid3) (a b c : ℕ) (h : ¬(a = i ∧ b = j)) :
    pjBodySpecRead nx ny uold vx vy dtA s i j U a b c = U a b c := by
  simp only [pjBodySpecRead, upd3_eval]
  rw [if_neg (by tauto), if_neg (by tauto), if_neg (by tauto)]

theorem pjBodySpecRead_read (nx ny : ℕ) (uold : Grid3) (vx vy dtA : Grid2)
    (s : Grid3) (i j : ℕ) (U V : Grid3) (h : ∀ c, U i j c = V i j c) :
    ∀ c, pjBodySpecRead nx ny uold vx vy dtA s i j U i j c
      = pjBodySpecRead nx ny uold vx vy dtA s i j V i j c := by
  intro c
  simp only [pjBodySpecRead, upd3_eval, h]

theorem point_Jacobi_specRead_eval (nx ny : ℕ) (u uold : Grid3)
    (vx vy dtA : Grid2) (s : Grid3) (a b c : ℕ) :
    point_Jacobi_specRead nx ny u uold vx vy dtA s a b c =
      if (a, b) ∈ interiorNodes nx ny
      then pjBodySpecRead nx ny uold vx vy dtA s a b u a b c
      else u a b c := by
  unfold point_Jacobi_specRead
  exact foldNodes_eval _
    (fun i j U a b c h => pjBodySpecRead_frame nx ny uold vx vy dtA s i j U a b c h)
    (fun i j U V h c => pjBodySpecRead_read nx ny uold vx vy dtA s i j U V h c)
    _ (nodup_nodeSeq 1 (nx-2) 1 (ny-2)) u a b c

/-- C2 failing input, `u` buffer: after the pointer swap the `u` buffer
holds stale contents; here it carries the value `10` in the x-velocity
slot of node `(2,2)`. -/
def uC2 : Grid3 := fun a b c => if a = 2 ∧ b = 2 ∧ c = 1 then 10 else 0

/-- C2 failing input, `uold` buffer (the designated read side): all zero. -/
def uoldC2 : Grid3 := fun _ _ _ => 0

/-- C2 failing input, `viscx`: `1` at node `(2,2)` so that the continuity
residual there is nonzero. -/
def viscxC2 : Grid2 := fun a b => if a = 2 ∧ b = 2 then 1 else 0

/-- C2 failing input, `viscy`: zero. -/
def viscyC2 : Grid2 := fun _ _ => 0

/-- C2 failing input, local time steps: one everywhere. -/
def dtC2 : Grid2 := fun _ _ => 1

/-- C2 failing input, source terms: zero (non-MMS run). -/
def srcC2 : Grid3 := fun _ _ _ => 0

/-- C2: on a 5-by-5 grid with `uold` identically zero, the point-Jacobi
sweep updates the pressure at node `(2,2)` to `100`, because the
preconditioning parameter is computed from the `u` buffer (the swapped-in
stale storage, holding `u = 10` there, so `beta2 = 100`); had every
quantity been read from `U_old` as the claim states, `beta2` would be
`rkappa*vel2ref = 1/10` and the updated pressure `1/10`.  The two
disagree, so the sweep does not read the preconditioning velocities from
`U_old`. -/
theorem claim_C2 :
    point_Jacobi 5 5 uC2 uoldC2 viscxC2 viscyC2 dtC2 srcC2 2 2 0 = 100
    ∧ point_Jacobi_specRead 5 5 uC2 uoldC2 viscxC2 viscyC2 dtC2 srcC2 2 2 0 = 1/10
    ∧ (100 : ℚ) ≠ 1/10 := by
  have hmem : ((2 : ℕ), (2 : ℕ)) ∈ interiorNodes 5 5 := by
    unfold interiorNodes
    exact (mem_nodeSeq 1 (5-2) 1 (5-2) 2 2).mpr (by omega)
  refine ⟨?_, ?_, by norm_num⟩
  · rw [point_Jacobi_eval, if_pos hmem]
    simp only [pjBody, upd3_eval, uC2, uoldC2, viscxC2, viscyC2, dtC2, srcC2,
      beta2_point_jacobi, pow2, rkappa, vel2ref, uinf, rho]
    norm_num [max_def]
  · rw [point_Jacobi_specRead_eval, if_pos hmem]
    simp only [pjBodySpecRead, upd3_eval, uC2, uoldC2, viscxC2, viscyC2, dtC2, srcC2,
      beta2_point_jacobi, pow2, rkappa, vel2ref, uinf, rho]
    norm_num [max_def]

/-! ## Artificial dissipation: stage lemmas and C3 -/

theorem cavSideBody_snd (nx ny i j : ℕ) (st : Grid2 × Grid2) :
    (cavSideBody nx ny i j st).2 = st.2 := by
  unfold cavSideBody
  split_ifs <;> rfl

theorem cavTopBottomBody_snd (nx ny i j : ℕ) (st : Grid2 × Grid2) :
    (cavTopBottomBody nx ny i j st).2 = st.2 := by
  unfold cavTopBottomBody
  split_ifs <;> rfl

theorem foldl_snd_const {α : Type} (f : Grid2 × Grid2 → α → Grid2 × Grid2)
    (h : ∀ st a, (f st a).2 = st.2) (L : List α) (st : Grid2 × Grid2) :
    (L.foldl f st).2 = st.2 := by
  induction L generalizing st with
  | nil => rfl
  | cons p t ih => rw [List.foldl_cons, ih, h]

/-- Neither extrapolation phase ever writes `viscy`: the second component
of the state is exactly the stencil-phase output. -/
theorem cav_snd (R : RealOracle) (nx ny : ℕ) (u : Grid3) (vx vy : Grid2) :
    (Compute_Artificial_Viscosity R nx ny u vx vy).2
      = (cavStencil R nx ny u (vx, vy)).2 := by
  unfold Compute_Artificial_Viscosity cavTopBottom cavSides
  rw [foldl_snd_const _ (fun st j => foldl_snd_const _
      (fun st2 i => cavTopBottomBody_snd nx ny i j st2) _ st) _ _,
    foldl_snd_const _ (fun st i => foldl_snd_const _
      (fun st2 j => cavSideBody_snd nx ny i j st2) _ st) _ _]

theorem cavStencilInner_eval (R : RealOracle) (nx ny : ℕ) (u : Grid3) (j m : ℕ)
    (st : Grid2 × Grid2) (a b : ℕ) :
    ((List.range' 2 m).foldl (fun st i => cavStencilBody R nx ny u i j st) st).1 a b
        = (if b = j ∧ 2 ≤ a ∧ a < 2 + m then cavVxVal R nx ny u a j else st.1 a b)
    ∧ ((List.range' 2 m).foldl (fun st i => cavStencilBody R nx ny u i j st) st).2 a b
        = (if b = j ∧ 2 ≤ a ∧ a < 2 + m then cavVyVal R nx ny u a j else st.2 a b) := by
  induction m with
  | zero =>
    constructor <;> · rw [if_neg (by omega)]; rfl
  | succ m ih =>
    rw [List.range'_1_concat, List.foldl_append, List.foldl_cons, List.foldl_nil]
    have hfst : ∀ st2 : Grid2 × Grid2,
        (cavStencilBody R nx ny u (2+m) j st2).1 a b
          = if a = 2 + m ∧ b = j then cavVxVal R nx ny u (2+m) j else st2.1 a b := by
      intro st2; rfl
    have hsnd : ∀ st2 : Grid2 × Grid2,
        (cavStencilBody R nx ny u (2+m) j st2).2 a b
          = if a = 2 + m ∧ b = j then cavVyVal R nx ny u (2+m) j else st2.2 a b := by
      intro st2; rfl
    constructor
    · rw [hfst]
      by_cases hc : a = 2 + m ∧ b = j
      · rw [if_pos hc, if_pos (by omega), hc.1]
      · rw [if_neg hc, ih.1]
        by_cases hin : b = j ∧ 2 ≤ a ∧ a < 2 + m
        · rw [if_pos hin, if_pos (by omega)]
        · rw [if_neg hin, if_neg (by omega)]
    · rw [hsnd]
      by_cases hc : a = 2 + m ∧ b = j
      · rw [if_pos hc, if_pos (by omega), hc.1]
      · rw [if_neg hc, ih.2]
        by_cases hin : b = j ∧ 2 ≤ a ∧ a < 2 + m
        · rw [if_pos hin, if_pos (by omega)]
        · rw [if_neg hin, if_neg (by omega)]

theorem cavStencil_eval (R : RealOracle) (nx ny : ℕ) (u : Grid3)
    (vx vy : Grid2) (a b : ℕ) :
    (cavStencil R nx ny u (vx, vy)).1 a b
        = (if (2 ≤ b ∧ b < 2 + (ny-4)) ∧ (2 ≤ a ∧ a < 2 + (nx-4))
            then cavVxVal R nx ny u a b else vx a b)
    ∧ (cavStencil R nx ny u (vx, vy)).2 a b
        = (if (2 ≤ b ∧ b < 2 + (ny-4)) ∧ (2 ≤ a ∧ a < 2 + (nx-4))
            then cavVyVal R nx ny u a b else vy a b) := by
  unfold cavStencil
  generalize ny - 4 = m
  induction m with
  | zero =>
    constructor <;> · rw [if_neg (by omega)]; rfl
  | succ m ih =>
    rw [List.range'_1_concat, List.foldl_append, List.foldl_cons, List.foldl_nil]
    constructor
    · rw [(cavStencilInner_eval R nx ny u (2+m) (nx-4) _ a b).1]
      by_cases hc : b = 2 + m ∧ 2 ≤ a ∧ a < 2 + (nx - 4)
      · rw [if_pos hc, if_pos (by omega), hc.1]
      · rw [if_neg hc, ih.1]
        by_cases hin : (2 ≤ b ∧ b < 2 + m) ∧ 2 ≤ a ∧ a < 2 + (nx - 4)
        · rw [if_pos hin, if_pos (by omega)]
        · rw [if_neg hin, if_neg (by omega)]
    · rw [(cavStencilInner_eval R nx ny u (2+m) (nx-4) _ a b).2]
      by_cases hc : b = 2 + m ∧ 2 ≤ a ∧ a < 2 + (nx - 4)
      · rw [if_pos hc, if_pos (by omega), hc.1]
      · rw [if_neg hc, ih.2]
        by_cases hin : (2 ≤ b ∧ b < 2 + m) ∧ 2 ≤ a ∧ a < 2 + (nx - 4)
        · rw [if_pos hin, if_pos (by omega)]
        · rw [if_neg hin, if_neg (by omega)]

/-- C3 failing input, field `u`: constant pressure `1`, zero velocity, so
every interior stencil damping value is exactly zero (for any oracle). -/
def uC3 : Grid3 := fun _ _ c => if c = 0 then 1 else 0

/-- C3 failing input, incoming `viscx` buffer contents. -/
def vxC3 : Grid2 := fun _ _ => 7

/-- C3 failing input, incoming `viscy` buffer contents. -/
def vyC3 : Grid2 := fun _ _ => 42

/-- C3: on a 7-by-7 grid with constant pressure (so all interior damping
values are `0`), the near-boundary `viscy` value at node `(1,2)` keeps the
incoming buffer contents `42`: the extrapolation passes never write
`viscy`.  Linear extrapolation from the two nearest interior `viscy`
values along the boundary normal, as the claim states, would give
`2*viscy(2,2) - viscy(3,2) = 0 ≠ 42`. -/
theorem claim_C3 :
    (Compute_Artificial_Viscosity oid 7 7 uC3 vxC3 vyC3).2 1 2 = 42
    ∧ 2 * (Compute_Artificial_Viscosity oid 7 7 uC3 vxC3 vyC3).2 2 2
        - (Compute_Artificial_Viscosity oid 7 7 uC3 vxC3 vyC3).2 3 2 = 0
    ∧ (42 : ℚ) ≠ 0 := by
  have hval : ∀ a b, 2 ≤ a → a ≤ 4 → 2 ≤ b → b ≤ 4 →
      cavVyVal oid 7 7 uC3 a b = 0 := by
    intro a b _ _ _ _
    simp only [cavVyVal, uC3]
    norm_num
  refine ⟨?_, ?_, by norm_num⟩
  · rw [cav_snd, (cavStencil_eval oid 7 7 uC3 vxC3 vyC3 1 2).2,
      if_neg (by omega)]
    rfl
  · rw [cav_snd, (cavStencil_eval oid 7 7 uC3 vxC3 vyC3 2 2).2,
      (cavStencil_eval oid 7 7 uC3 vxC3 vyC3 3 2).2,
      if_pos (by norm_num), if_pos (by norm_num),
      hval 2 2 (by norm_num) (by norm_num) (by norm_num) (by norm_num),
      hval 3 2 (by norm_num) (by norm_num) (by norm_num) (by norm_num)]
    norm_num

/-! ## Cavity-wall boundary applier: evaluation lemmas

The left/right pass writes only columns `0` and `nx-1` and, at row `j`,
reads the mutated field only at row `j` (columns `1, 2, nx-2, nx-3`).  The
bottom/top pass writes only rows `0` and `ny-1` at columns `1..nx-2` and,
at column `i`, reads the mutated field only at column `i` (rows
`1, 2, ny-2, ny-3`).  The lemmas below capture frame conditions, read
dependencies and the six written values of each pass body, from which the
pass-level evaluations follow by induction on the trip count. -/

theorem bndryLRBody_row_frame (nx j : ℕ) (u : Grid3) (a b c : ℕ) (h : b ≠ j) :
    bndryLRBody nx j u a b c = u a b c := by
  simp [bndryLRBody, upd3_eval, h]

theorem bndryLRBody_col_frame (nx j : ℕ) (u : Grid3) (a b c : ℕ)
    (h0 : a ≠ 0) (h1 : a ≠ nx-1) :
    bndryLRBody nx j u a b c = u a b c := by
  simp [bndryLRBody, upd3_eval, h0, h1]

theorem bndryLRBody_k_frame (nx j : ℕ) (u : Grid3) (a b c : ℕ) (h : 3 ≤ c) :
    bndryLRBody nx j u a b c = u a b c := by
  have h0 : c ≠ 0 := by omega
  have h1 : c ≠ 1 := by omega
  have h2 : c ≠ 2 := by omega
  simp [bndryLRBody, upd3_eval, h0, h1, h2]

theorem bndryLRBody_read (nx j : ℕ) (U V : Grid3) (h : ∀ a c, U a j c = V a j c)
    (a c : ℕ) : bndryLRBody nx j U a j c = bndryLRBody nx j V a j c := by
  simp only [bndryLRBody, upd3_eval, h]

theorem bndryLRBody_left_u (nx j : ℕ) (u : Grid3) (hnx : 5 ≤ nx) :
    bndryLRBody nx j u 0 j 1 = 0 := by
  have h0 : (0:ℕ) ≠ nx - 1 := by omega
  simp [bndryLRBody, upd3_eval, h0]

theorem bndryLRBody_left_v (nx j : ℕ) (u : Grid3) (hnx : 5 ≤ nx) :
    bndryLRBody nx j u 0 j 2 = 0 := by
  have h0 : (0:ℕ) ≠ nx - 1 := by omega
  simp [bndryLRBody, upd3_eval, h0]

theorem bndryLRBody_left_p (nx j : ℕ) (u : Grid3) (hnx : 5 ≤ nx) :
    bndryLRBody nx j u 0 j 0 = 2 * u 1 j 0 - u 2 j 0 := by
  have h1 : (1:ℕ) ≠ nx - 1 := by omega
  have h2 : (2:ℕ) ≠ nx - 1 := by omega
  simp [bndryLRBody, upd3_eval, h1, h2]

theorem bndryLRBody_right_u (nx j : ℕ) (u : Grid3) (hnx : 5 ≤ nx) :
    bndryLRBody nx j u (nx-1) j 1 = 0 := by
  have h0 : nx - 1 ≠ 0 := by omega
  have h1 : (1:ℕ) ≠ nx - 1 := by omega
  have h2 : (2:ℕ) ≠ nx - 1 := by omega
  simp [bndryLRBody, upd3_eval, h0, h1, h2]

theorem bndryLRBody_right_v (nx j : ℕ) (u : Grid3) (hnx : 5 ≤ nx) :
    bndryLRBody nx j u (nx-1) j 2 = 0 := by
  have h0 : nx - 1 ≠ 0 := by omega
  have h1 : (1:ℕ) ≠ nx - 1 := by omega
  have h2 : (2:ℕ) ≠ nx - 1 := by omega
  simp [bndryLRBody, upd3_eval, h0, h1, h2]

theorem bndryLRBody_right_p (nx j : ℕ) (u : Grid3) (hnx : 5 ≤ nx) :
    bndryLRBody nx j u (nx-1) j 0 = 2 * u (nx-2) j 0 - u (nx-3) j 0 := by
  have h0 : nx - 1 ≠ 0 := by omega
  have h1 : nx - 2 ≠ nx - 1 := by omega
  have h2 : nx - 3 ≠ nx - 1 := by omega
  have h3 : nx - 2 ≠ 0 := by omega
  have h4 : nx - 3 ≠ 0 := by omega
  have h5 : (1:ℕ) ≠ nx - 1 := by omega
  have h6 : (2:ℕ) ≠ nx - 1 := by omega
  simp [bndryLRBody, upd3_eval, h0, h1, h2, h3, h4, h5, h6]

theorem bndryTBBody_col_frame (ny i : ℕ) (u : Grid3) (a b c : ℕ) (h : a ≠ i) :
    bndryTBBody ny i u a b c = u a b c := by
  simp [bndryTBBody, upd3_eval, h]

theorem bndryTBBody_row_frame (ny i : ℕ) (u : Grid3) (a b c : ℕ)
    (h0 : b ≠ 0) (h1 : b ≠ ny-1) :
    bndryTBBody ny i u a b c = u a b c := by
  simp [bndryTBBody, upd3_eval, h0, h1]

theorem bndryTBBody_k_frame (ny i : ℕ) (u : Grid3) (a b c : ℕ) (h : 3 ≤ c) :
    bndryTBBody ny i u a b c = u a b c := by
  have h0 : c ≠ 0 := by omega
  have h1 : c ≠ 1 := by omega
  have h2 : c ≠ 2 := by omega
  simp [bndryTBBody, upd3_eval, h0, h1, h2]

theorem bndryTBBody_read (ny i : ℕ) (U V : Grid3) (h : ∀ b c, U i b c = V i b c)
    (b c : ℕ) : bndryTBBody ny i U i b c = bndryTBBody ny i V i b c := by
  simp only [bndryTBBody, upd3_eval, h]

theorem bndryTBBody_bottom_u (ny i : ℕ) (u : Grid3) (hny : 5 ≤ ny) :
    bndryTBBody ny i u i 0 1 = 0 := by
  have h0 : (0:ℕ) ≠ ny - 1 := by omega
  simp [bndryTBBody, upd3_eval, h0]

theorem bndryTBBody_bottom_v (ny i : ℕ) (u : Grid3) (hny : 5 ≤ ny) :
    bndryTBBody ny i u i 0 2 = 0 := by
  have h0 : (0:ℕ) ≠ ny - 1 := by omega
  simp [bndryTBBody, upd3_eval, h0]

theorem bndryTBBody_bottom_p (ny i : ℕ) (u : Grid3) (hny : 5 ≤ ny) :
    bndryTBBody ny i u i 0 0 = 2 * u i 1 0 - u i 2 0 := by
  have h0 : (0:ℕ) ≠ ny - 1 := by omega
  have h1 : (1:ℕ) ≠ ny - 1 := by omega
  have h2 : (2:ℕ) ≠ ny - 1 := by omega
  simp [bndryTBBody, upd3_eval, h0, h1, h2]

theorem bndryTBBody_top_u (ny i : ℕ) (u : Grid3) (hny : 5 ≤ ny) :
    bndryTBBody ny i u i (ny-1) 1 = uinf := by
  have h0 : (0:ℕ) ≠ ny - 1 := by omega
  simp [bndryTBBody, upd3_eval, h0]

theorem bndryTBBody_top_v (ny i : ℕ) (u : Grid3) (hny : 5 ≤ ny) :
    bndryTBBody ny i u i (ny-1) 2 = 0 := by
  have h0 : (0:ℕ) ≠ ny - 1 := by omega
  simp [bndryTBBody, upd3_eval, h0]

theorem bndryTBBody_top_p (ny i : ℕ) (u : Grid3) (hny : 5 ≤ ny) :
    bndryTBBody ny i u i (ny-1) 0 = 2 * u i (ny-2) 0 - u i (ny-3) 0 := by
  have h0 : ny - 2 ≠ 0 := by omega
  have h1 : ny - 3 ≠ 0 := by omega
  have h2 : ny - 2 ≠ ny - 1 := by omega
  have h3 : ny - 3 ≠ ny - 1 := by omega
  have h4 : (0:ℕ) ≠ ny - 1 := by omega
  simp [bndryTBBody, upd3_eval, h0, h1, h2, h3, h4]

theorem bndryLRAux_succ (nx m : ℕ) (u : Grid3) :
    bndryLRAux nx (m+1) u = bndryLRBody nx m (bndryLRAux nx m u) := by
  unfold bndryLRAux
  rw [List.range_succ, List.foldl_append, List.foldl_cons, List.foldl_nil]

theorem bndryLRAux_frame (nx m : ℕ) (u : Grid3) (a b c : ℕ) (hb : m ≤ b) :
    bndryLRAux nx m u a b c = u a b c := by
  induction m with
  | zero => rfl
  | succ m ih =>
    rw [bndryLRAux_succ, bndryLRBody_row_frame nx m _ a b c (by omega),
      ih (by omega)]

theorem bndryLRAux_col_frame (nx m : ℕ) (u : Grid3) (a b c : ℕ)
    (h0 : a ≠ 0) (h1 : a ≠ nx-1) :
    bndryLRAux nx m u a b c = u a b c := by
  induction m with
  | zero => rfl
  | succ m ih =>
    rw [bndryLRAux_succ, bndryLRBody_col_frame nx m _ a b c h0 h1, ih]

theorem bndryLRAux_eval (nx m : ℕ) (u : Grid3) (a b c : ℕ) (hb : b < m) :
    bndryLRAux nx m u a b c = bndryLRBody nx b u a b c := by
  induction m with
  | zero => omega
  | succ m ih =>
    rw [bndryLRAux_succ]
    by_cases hbm : b = m
    · subst hbm
      exact bndryLRBody_read nx b _ u
        (fun a2 c2 => bndryLRAux_frame nx b u a2 b c2 (le_refl b)) a c
    · rw [bndryLRBody_row_frame nx m _ a b c (by omega), ih (by omega)]

theorem bndryTBAux_succ (ny m : ℕ) (u : Grid3) :
    bndryTBAux ny (m+1) u = bndryTBBody ny (1+m) (bndryTBAux ny m u) := by
  unfold bndryTBAux
  rw [List.range'_1_concat, List.foldl_append, List.foldl_cons, List.foldl_nil]

theorem bndryTBAux_frame (ny m : ℕ) (u : Grid3) (a b c : ℕ)
    (ha : a = 0 ∨ m < a) :
    bndryTBAux ny m u a b c = u a b c := by
  induction m with
  | zero => rfl
  | succ m ih =>
    rw [bndryTBAux_succ, bndryTBBody_col_frame ny (1+m) _ a b c (by omega),
      ih (by omega)]

theorem bndryTBAux_row_frame (ny m : ℕ) (u : Grid3) (a b c : ℕ)
    (h0 : b ≠ 0) (h1 : b ≠ ny-1) :
    bndryTBAux ny m u a b c = u a b c := by
  induction m with
  | zero => rfl
  | succ m ih =>
    rw [bndryTBAux_succ, bndryTBBody_row_frame ny (1+m) _ a b c h0 h1, ih]

theorem bndryTBAux_eval (ny m : ℕ) (u : Grid3) (a b c : ℕ)
    (h1 : 1 ≤ a) (h2 : a ≤ m) :
    bndryTBAux ny m u a b c = bndryTBBody ny a u a b c := by
  induction m with
  | zero => omega
  | succ m ih =>
    rw [bndryTBAux_succ]
    by_cases ham : a = 1 + m
    · subst ham
      exact bndryTBBody_read ny (1+m) _ u
        (fun b2 c2 => bndryTBAux_frame ny m u (1+m) b2 c2 (by omega)) b c
    · rw [bndryTBBody_col_frame ny (1+m) _ a b c (by omega), ih (by omega)]

/-- Interior nodes are untouched by `bndry`. -/
theorem bndry_interior (nx ny : ℕ) (u : Grid3) (a b c : ℕ)
    (ha1 : 1 ≤ a) (ha2 : a ≤ nx-2) (hb1 : 1 ≤ b) (hb2 : b ≤ ny-2)
    (hnx : 5 ≤ nx) (hny : 5 ≤ ny) :
    bndry nx ny u a b c = u a b c := by
  unfold bndry
  rw [bndryTBAux_row_frame ny (nx-2) _ a b c (by omega) (by omega),
    bndryLRAux_eval nx ny u a b c (by omega),
    bndryLRBody_col_frame nx b u a b c (by omega) (by omega)]

/-! ## C7: corner nodes under the cavity-wall policy -/

/-- C7 counterexample: on a 5-by-5 grid, the final u-velocity at corner
`(0, ny-1)` of the lid row is `0`, written by the left-wall pass; had the
top/bottom pass written the corner last as the claim states, the lid write
`u = uinf = 1` would stand there. -/
theorem counterexample_C7 :
    bndry 5 5 (fun _ _ _ => 3) 0 4 1 = 0 ∧ uinf = 1 ∧ (0 : ℚ) ≠ 1 := by
  refine ⟨?_, rfl, by norm_num⟩
  unfold bndry
  rw [bndryTBAux_frame 5 (5-2) _ 0 4 1 (Or.inl rfl),
    bndryLRAux_eval 5 5 _ 0 4 1 (by norm_num),
    bndryLRBody_left_u 5 4 _ (by norm_num)]

/-- C7 amended: the top/bottom pass of the cavity-wall policy runs only
over interior columns `i = 1..nx-2` and never writes a corner node; every
corner node's final value is the one written by the left/right wall pass:
zero velocities, and pressure extrapolated from the two interior columns
adjacent to that wall in the corner's own row of the incoming field. -/
theorem claim_C7_amended (nx ny : ℕ) (u : Grid3) (hnx : 5 ≤ nx) (hny : 5 ≤ ny) :
    (∀ v : Grid3, ∀ a b c, (a = 0 ∨ a = nx-1) →
        bndryTBAux ny (nx-2) v a b c = v a b c)
    ∧ (bndry nx ny u 0 0 1 = 0 ∧ bndry nx ny u 0 0 2 = 0
        ∧ bndry nx ny u 0 0 0 = 2 * u 1 0 0 - u 2 0 0)
    ∧ (bndry nx ny u (nx-1) 0 1 = 0 ∧ bndry nx ny u (nx-1) 0 2 = 0
        ∧ bndry nx ny u (nx-1) 0 0 = 2 * u (nx-2) 0 0 - u (nx-3) 0 0)
    ∧ (bndry nx ny u 0 (ny-1) 1 = 0 ∧ bndry nx ny u 0 (ny-1) 2 = 0
        ∧ bndry nx ny u 0 (ny-1) 0 = 2 * u 1 (ny-1) 0 - u 2 (ny-1) 0)
    ∧ (bndry nx ny u (nx-1) (ny-1) 1 = 0 ∧ bndry nx ny u (nx-1) (ny-1) 2 = 0
        ∧ bndry nx ny u (nx-1) (ny-1) 0
            = 2 * u (nx-2) (ny-1) 0 - u (nx-3) (ny-1) 0) := by
  have hTB : ∀ v : Grid3, ∀ a b c, (a = 0 ∨ a = nx-1) →
      bndryTBAux ny (nx-2) v a b c = v a b c := by
    intro v a b c ha
    exact bndryTBAux_frame ny (nx-2) v a b c (by omega)
  refine ⟨hTB, ⟨?_, ?_, ?_⟩, ⟨?_, ?_, ?_⟩, ⟨?_, ?_, ?_⟩, ⟨?_, ?_, ?_⟩⟩
  · rw [bndry, hTB _ _ _ _ (Or.inl rfl), bndryLRAux_eval nx ny u 0 0 1 (by omega),
      bndryLRBody_left_u nx 0 u hnx]
  · rw [bndry, hTB _ _ _ _ (Or.inl rfl), bndryLRAux_eval nx ny u 0 0 2 (by omega),
      bndryLRBody_left_v nx 0 u hnx]
  · rw [bndry, hTB _ _ _ _ (Or.inl rfl), bndryLRAux_eval nx ny u 0 0 0 (by omega),
      bndryLRBody_left_p nx 0 u hnx]
  · rw [bndry, hTB _ _ _ _ (Or.inr rfl), bndryLRAux_eval nx ny u (nx-1) 0 1 (by omega),
      bndryLRBody_right_u nx 0 u hnx]
  · rw [bndry, hTB _ _ _ _ (Or.inr rfl), bndryLRAux_eval nx ny u (nx-1) 0 2 (by omega),
      bndryLRBody_right_v nx 0 u hnx]
  · rw [bndry, hTB _ _ _ _ (Or.inr rfl), bndryLRAux_eval nx ny u (nx-1) 0 0 (by omega),
      bndryLRBody_right_p nx 0 u hnx]
  · rw [bndry, hTB _ _ _ _ (Or.inl rfl), bndryLRAux_eval nx ny u 0 (ny-1) 1 (by omega),
      bndryLRBody_left_u nx (ny-1) u hnx]
  · rw [bndry, hTB _ _ _ _ (Or.inl rfl), bndryLRAux_eval nx ny u 0 (ny-1) 2 (by omega),
      bndryLRBody_left_v nx (ny-1) u hnx]
  · rw [bndry, hTB _ _ _ _ (Or.inl rfl), bndryLRAux_eval nx ny u 0 (ny-1) 0 (by omega),
      bndryLRBody_left_p nx (ny-1) u hnx]
  · rw [bndry, hTB _ _ _ _ (Or.inr rfl),
      bndryLRAux_eval nx ny u (nx-1) (ny-1) 1 (by omega),
      bndryLRBody_right_u nx (ny-1) u hnx]
  · rw [bndry, hTB _ _ _ _ (Or.inr rfl),
      bndryLRAux_eval nx ny u (nx-1) (ny-1) 2 (by omega),
      bndryLRBody_right_v nx (ny-1) u hnx]
  · rw [bndry, hTB _ _ _ _ (Or.inr rfl),
      bndryLRAux_eval nx ny u (nx-1) (ny-1) 0 (by omega),
      bndryLRBody_right_p nx (ny-1) u hnx]

/-- C7 witness: the amended theorem applied on a concrete 5-by-5 grid. -/
theorem claim_C7_amended_witness :
    5 ≤ 5 ∧ bndry 5 5 (fun a b c => (a : ℚ) + 10*b + 100*c) 0 0 0
      = 2 * ((1 : ℚ) + 10*0 + 100*0) - ((2 : ℚ) + 10*0 + 100*0) :=
  ⟨by norm_num,
    (claim_C7_amended 5 5 (fun a b c => (a : ℚ) + 10*b + 100*c)
      (by norm_num) (by norm_num)).2.1.2.2⟩

/-! ## C8: idempotence of the boundary appliers, cavity-wall part -/

/-- C8 failing input: a field whose row-0 pressures at columns 1 and 2
make the corner extrapolation visible. -/
def uC8 : Grid3 := fun a b c =>
  if a = 1 ∧ b = 0 ∧ c = 0 then 5 else if a = 2 ∧ b = 0 ∧ c = 0 then 1 else 0

/-- C8 counterexample: on a 5-by-5 grid, applying `bndry` twice changes
the corner pressure at `(0,0)` from `9` to `0`: the second application
extrapolates from the row-0 pressures at columns 1 and 2, which the first
application's bottom-wall pass rewrote.  So `bndry` is not idempotent. -/
theorem counterexample_C8 :
    bndry 5 5 uC8 0 0 0 = 9
    ∧ bndry 5 5 (bndry 5 5 uC8) 0 0 0 = 0
    ∧ (9 : ℚ) ≠ 0 := by
  have hY1 : bndry 5 5 uC8 1 0 0 = 0 := by
    rw [bndry, bndryTBAux_eval 5 (5-2) _ 1 0 0 (by norm_num) (by norm_num),
      bndryTBBody_bottom_p 5 1 _ (by norm_num),
      bndryLRAux_eval 5 5 uC8 1 1 0 (by norm_num),
      bndryLRBody_col_frame 5 1 uC8 1 1 0 (by norm_num) (by norm_num),
      bndryLRAux_eval 5 5 uC8 1 2 0 (by norm_num),
      bndryLRBody_col_frame 5 2 uC8 1 2 0 (by norm_num) (by norm_num)]
    norm_num [uC8]
  have hY2 : bndry 5 5 uC8 2 0 0 = 0 := by
    rw [bndry, bndryTBAux_eval 5 (5-2) _ 2 0 0 (by norm_num) (by norm_num),
      bndryTBBody_bottom_p 5 2 _ (by norm_num),
      bndryLRAux_eval 5 5 uC8 2 1 0 (by norm_num),
      bndryLRBody_col_frame 5 1 uC8 2 1 0 (by norm_num) (by norm_num),
      bndryLRAux_eval 5 5 uC8 2 2 0 (by norm_num),
      bndryLRBody_col_frame 5 2 uC8 2 2 0 (by norm_num) (by norm_num)]
    norm_num [uC8]
  refine ⟨?_, ?_, by norm_num⟩
  · rw [bndry, bndryTBAux_frame 5 (5-2) _ 0 0 0 (Or.inl rfl),
      bndryLRAux_eval 5 5 uC8 0 0 0 (by norm_num),
      bndryLRBody_left_p 5 0 uC8 (by norm_num)]
    norm_num [uC8]
  · rw [bndry, bndryTBAux_frame 5 (5-2) _ 0 0 0 (Or.inl rfl),
      bndryLRAux_eval 5 5 (bndry 5 5 uC8) 0 0 0 (by norm_num),
      bndryLRBody_left_p 5 0 (bndry 5 5 uC8) (by norm_num), hY1, hY2]
    norm_num

/-! ## MMS boundary applier: evaluation lemmas -/

theorem bndrymmsSWBody_row_frame (R : RealOracle) (nx ny j : ℕ) (u : Grid3)
    (a b c : ℕ) (h : b ≠ j) :
    bndrymmsSWBody R nx ny j u a b c = u a b c := by
  simp [bndrymmsSWBody, upd3_eval, h]

theorem bndrymmsSWBody_col_frame (R : RealOracle) (nx ny j : ℕ) (u : Grid3)
    (a b c : ℕ) (h0 : a ≠ 0) (h1 : a ≠ nx-1) :
    bndrymmsSWBody R nx ny j u a b c = u a b c := by
  simp [bndrymmsSWBody, upd3_eval, h0, h1]

theorem bndrymmsSWBody_k_frame (R : RealOracle) (nx ny j : ℕ) (u : Grid3)
    (a b c : ℕ) (h : 3 ≤ c) :
    bndrymmsSWBody R nx ny j u a b c = u a b c := by
  have h0 : c ≠ 0 := by omega
  have h1 : c ≠ 1 := by omega
  have h2 : c ≠ 2 := by omega
  simp [bndrymmsSWBody, upd3_eval, h0, h1, h2]

theorem bndrymmsSWBody_read (R : RealOracle) (nx ny j : ℕ) (U V : Grid3)
    (h : ∀ a c, U a j c = V a j c) (a c : ℕ) :
    bndrymmsSWBody R nx ny j U a j c = bndrymmsSWBody R nx ny j V a j c := by
  simp only [bndrymmsSWBody, upd3_eval, h]

theorem bndrymmsSWBody_left_p (R : RealOracle) (nx ny j : ℕ) (u : Grid3)
    (hnx : 5 ≤ nx) :
    bndrymmsSWBody R nx ny j u 0 j 0 = 2 * u 1 j 0 - u 2 j 0 := by
  have h0 : (0:ℕ) ≠ nx - 1 := by omega
  have h1 : (1:ℕ) ≠ nx - 1 := by omega
  have h2 : (2:ℕ) ≠ nx - 1 := by omega
  simp [bndrymmsSWBody, upd3_eval, h0, h1, h2]

theorem bndrymmsSWBody_left_u (R : RealOracle) (nx ny j : ℕ) (u : Grid3)
    (hnx : 5 ≤ nx) :
    bndrymmsSWBody R nx ny j u 0 j 1 = umms R xmin (ycoord ny j) 1 := by
  have h0 : (0:ℕ) ≠ nx - 1 := by omega
  simp [bndrymmsSWBody, upd3_eval, h0]

theorem bndrymmsSWBody_left_v (R : RealOracle) (nx ny j : ℕ) (u : Grid3)
    (hnx : 5 ≤ nx) :
    bndrymmsSWBody R nx ny j u 0 j 2 = umms R xmin (ycoord ny j) 2 := by
  have h0 : (0:ℕ) ≠ nx - 1 := by omega
  simp [bndrymmsSWBody, upd3_eval, h0]

theorem bndrymmsSWBody_right_p (R : RealOracle) (nx ny j : ℕ) (u : Grid3)
    (hnx : 5 ≤ nx) :
    bndrymmsSWBody R nx ny j u (nx-1) j 0 = 2 * u (nx-2) j 0 - u (nx-3) j 0 := by
  have h0 : nx - 1 ≠ 0 := by omega
  have h1 : nx - 2 ≠ nx - 1 := by omega
  have h2 : nx - 3 ≠ nx - 1 := by omega
  have h3 : nx - 2 ≠ 0 := by omega
  have h4 : nx - 3 ≠ 0 := by omega
  simp [bndrymmsSWBody, upd3_eval, h0, h1, h2, h3, h4]

theorem bndrymmsSWBody_right_u (R : RealOracle) (nx ny j : ℕ) (u : Grid3)
    (hnx : 5 ≤ nx) :
    bndrymmsSWBody R nx ny j u (nx-1) j 1 = umms R xmax (ycoord ny j) 1 := by
  have h0 : nx - 1 ≠ 0 := by omega
  simp [bndrymmsSWBody, upd3_eval, h0]

theorem bndrymmsSWBody_right_v (R : RealOracle) (nx ny j : ℕ) (u : Grid3)
    (hnx : 5 ≤ nx) :
    bndrymmsSWBody R nx ny j u (nx-1) j 2 = umms R xmax (ycoord ny j) 2 := by
  have h0 : nx - 1 ≠ 0 := by omega
  simp [bndrymmsSWBody, upd3_eval, h0]

theorem bndrymmsTBBody_col_frame (R : RealOracle) (nx ny i : ℕ) (u : Grid3)
    (a b c : ℕ) (h : a ≠ i) :
    bndrymmsTBBody R nx ny i u a b c = u a b c := by
  simp [bndrymmsTBBody, upd3_eval, h]

theorem bndrymmsTBBody_row_frame (R : RealOracle) (nx ny i : ℕ) (u : Grid3)
    (a b c : ℕ) (h0 : b ≠ 0) (h1 : b ≠ ny-1) :
    bndrymmsTBBody R nx ny i u a b c = u a b c := by
  simp [bndrymmsTBBody, upd3_eval, h0, h1]

theorem bndrymmsTBBody_k_frame (R : RealOracle) (nx ny i : ℕ) (u : Grid3)
    (a b c : ℕ) (h : 3 ≤ c) :
    bndrymmsTBBody R nx ny i u a b c = u a b c := by
  have h0 : c ≠ 0 := by omega
  have h1 : c ≠ 1 := by omega
  have h2 : c ≠ 2 := by omega
  simp [bndrymmsTBBody, upd3_eval, h0, h1, h2]

theorem bndrymmsTBBody_read (R : RealOracle) (nx ny i : ℕ) (U V : Grid3)
    (h : ∀ b c, U i b c = V i b c) (b c : ℕ) :
    bndrymmsTBBody R nx ny i U i b c = bndrymmsTBBody R nx ny i V i b c := by
  simp only [bndrymmsTBBody, upd3_eval, h]

theorem bndrymmsTBBody_bottom_p (R : RealOracle) (nx ny i : ℕ) (u : Grid3)
    (hny : 5 ≤ ny) :
    bndrymmsTBBody R nx ny i u i 0 0 = 2 * u i 1 0 - u i 2 0 := by
  have h0 : (0:ℕ) ≠ ny - 1 := by omega
  have h1 : (1:ℕ) ≠ ny - 1 := by omega
  have h2 : (2:ℕ) ≠ ny - 1 := by omega
  simp [bndrymmsTBBody, upd3_eval, h0, h1, h2]

theorem bndrymmsTBBody_bottom_u (R : RealOracle) (nx ny i : ℕ) (u : Grid3)
    (hny : 5 ≤ ny) :
    bndrymmsTBBody R nx ny i u i 0 1 = umms R (xcoord nx i) ymin 1 := by
  have h0 : (0:ℕ) ≠ ny - 1 := by omega
  simp [bndrymmsTBBody, upd3_eval, h0]

theorem bndrymmsTBBody_bottom_v (R : RealOracle) (nx ny i : ℕ) (u : Grid3)
    (hny : 5 ≤ ny) :
    bndrymmsTBBody R nx ny i u i 0 2 = umms R (xcoord nx i) ymin 2 := by
  have h0 : (0:ℕ) ≠ ny - 1 := by omega
  simp [bndrymmsTBBody, upd3_eval, h0]

theorem bndrymmsTBBody_top_p (R : RealOracle) (nx ny i : ℕ) (u : Grid3)
    (hny : 5 ≤ ny) :
    bndrymmsTBBody R nx ny i u i (ny-1) 0
      = 2 * u i (ny-2) 0 - u i (ny-3) 0 := by
  have h0 : ny - 2 ≠ 0 := by omega
  have h1 : ny - 3 ≠ 0 := by omega
  have h2 : ny - 2 ≠ ny - 1 := by omega
  have h3 : ny - 3 ≠ ny - 1 := by omega
  have h4 : (0:ℕ) ≠ ny - 1 := by omega
  simp [bndrymmsTBBody, upd3_eval, h0, h1, h2, h3, h4]

theorem bndrymmsTBBody_top_u (R : RealOracle) (nx ny i : ℕ) (u : Grid3)
    (hny : 5 ≤ ny) :
    bndrymmsTBBody R nx ny i u i (ny-1) 1 = umms R (xcoord nx i) ymax 1 := by
  have h0 : (0:ℕ) ≠ ny - 1 := by omega
  simp [bndrymmsTBBody, upd3_eval, h0]

theorem bndrymmsTBBody_top_v (R : RealOracle) (nx ny i : ℕ) (u : Grid3)
    (hny : 5 ≤ ny) :
    bndrymmsTBBody R nx ny i u i (ny-1) 2 = umms R (xcoord nx i) ymax 2 := by
  have h0 : (0:ℕ) ≠ ny - 1 := by omega
  simp [bndrymmsTBBody, upd3_eval, h0]

theorem bndrymmsSWAux_succ (R : RealOracle) (nx ny m : ℕ) (u : Grid3) :
    bndrymmsSWAux R nx ny (m+1) u
      = bndrymmsSWBody R nx ny (1+m) (bndrymmsSWAux R nx ny m u) := by
  unfold bndrymmsSWAux
  rw [List.range'_1_concat, List.foldl_append, List.foldl_cons, List.foldl_nil]

theorem bndrymmsSWAux_frame (R : RealOracle) (nx ny m : ℕ) (u : Grid3)
    (a b c : ℕ) (hb : b = 0 ∨ m < b) :
    bndrymmsSWAux R nx ny m u a b c = u a b c := by
  induction m with
  | zero => rfl
  | succ m ih =>
    rw [bndrymmsSWAux_succ, bndrymmsSWBody_row_frame R nx ny (1+m) _ a b c (by omega),
      ih (by omega)]

theorem bndrymmsSWAux_col_frame (R : RealOracle) (nx ny m : ℕ) (u : Grid3)
    (a b c : ℕ) (h0 : a ≠ 0) (h1 : a ≠ nx-1) :
    bndrymmsSWAux R nx ny m u a b c = u a b c := by
  induction m with
  | zero => rfl
  | succ m ih =>
    rw [bndrymmsSWAux_succ, bndrymmsSWBody_col_frame R nx ny (1+m) _ a b c h0 h1, ih]

theorem bndrymmsSWAux_k_frame (R : RealOracle) (nx ny m : ℕ) (u : Grid3)
    (a b c : ℕ) (h : 3 ≤ c) :
    bndrymmsSWAux R nx ny m u a b c = u a b c := by
  induction m with
  | zero => rfl
  | succ m ih =>
    rw [bndrymmsSWAux_succ, bndrymmsSWBody_k_frame R nx ny (1+m) _ a b c h, ih]

theorem bndrymmsSWAux_eval (R : RealOracle) (nx ny m : ℕ) (u : Grid3)
    (a b c : ℕ) (h1 : 1 ≤ b) (h2 : b ≤ m) :
    bndrymmsSWAux R nx ny m u a b c = bndrymmsSWBody R nx ny b u a b c := by
  induction m with
  | zero => omega
  | succ m ih =>
    rw [bndrymmsSWAux_succ]
    by_cases hbm : b = 1 + m
    · subst hbm
      exact bndrymmsSWBody_read R nx ny (1+m) _ u
        (fun a2 c2 => bndrymmsSWAux_frame R nx ny m u a2 (1+m) c2 (by omega)) a c
    · rw [bndrymmsSWBody_row_frame R nx ny (1+m) _ a b c (by omega), ih (by omega)]

theorem bndrymmsTBAux_succ (R : RealOracle) (nx ny m : ℕ) (u : Grid3) :
    bndrymmsTBAux R nx ny (m+1) u
      = bndrymmsTBBody R nx ny m (bndrymmsTBAux R nx ny m u) := by
  unfold bndrymmsTBAux
  rw [List.range_succ, List.foldl_append, List.foldl_cons, List.foldl_nil]

theorem bndrymmsTBAux_frame (R : RealOracle) (nx ny m : ℕ) (u : Grid3)
    (a b c : ℕ) (ha : m ≤ a) :
    bndrymmsTBAux R nx ny m u a b c = u a b c := by
  induction m with
  | zero => rfl
  | succ m ih =>
    rw [bndrymmsTBAux_succ, bndrymmsTBBody_col_frame R nx ny m _ a b c (by omega),
      ih (by omega)]

theorem bndrymmsTBAux_row_frame (R : RealOracle) (nx ny m : ℕ) (u : Grid3)
    (a b c : ℕ) (h0 : b ≠ 0) (h1 : b ≠ ny-1) :
    bndrymmsTBAux R nx ny m u a b c = u a b c := by
  induction m with
  | zero => rfl
  | succ m ih =>
    rw [bndrymmsTBAux_succ, bndrymmsTBBody_row_frame R nx ny m _ a b c h0 h1, ih]

theorem bndrymmsTBAux_k_frame (R : RealOracle) (nx ny m : ℕ) (u : Grid3)
    (a b c : ℕ) (h : 3 ≤ c) :
    bndrymmsTBAux R nx ny m u a b c = u a b c := by
  induction m with
  | zero => rfl
  | succ m ih =>
    rw [bndrymmsTBAux_succ, bndrymmsTBBody_k_frame R nx ny m _ a b c h, ih]

theorem bndrymmsTBAux_eval (R : RealOracle) (nx ny m : ℕ) (u : Grid3)
    (a b c : ℕ) (ha : a < m) :
    bndrymmsTBAux R nx ny m u a b c = bndrymmsTBBody R nx ny a u a b c := by
  induction m with
  | zero => omega
  | succ m ih =>
    rw [bndrymmsTBAux_succ]
    by_cases ham : a = m
    · subst ham
      exact bndrymmsTBBody_read R nx ny a _ u
        (fun b2 c2 => bndrymmsTBAux_frame R nx ny a u a b2 c2 (le_refl a)) b c
    · rw [bndrymmsTBBody_col_frame R nx ny m _ a b c (by omega), ih (by omega)]

/-- Interior nodes are untouched by `bndrymms`. -/
theorem bndrymms_interior (R : RealOracle) (nx ny : ℕ) (u : Grid3) (a b c : ℕ)
    (ha1 : 1 ≤ a) (ha2 : a ≤ nx-2) (hb1 : 1 ≤ b) (hb2 : b ≤ ny-2)
    (hnx : 5 ≤ nx) (hny : 5 ≤ ny) :
    bndrymms R nx ny u a b c = u a b c := by
  unfold bndrymms
  rw [bndrymmsTBAux_row_frame R nx ny nx _ a b c (by omega) (by omega),
    bndrymmsSWAux_col_frame R nx ny (ny-2) u a b c (by omega) (by omega)]

theorem bndryLRAux_k_frame (nx m : ℕ) (u : Grid3) (a b c : ℕ) (h : 3 ≤ c) :
    bndryLRAux nx m u a b c = u a b c := by
  induction m with
  | zero => rfl
  | succ m ih => rw [bndryLRAux_succ, bndryLRBody_k_frame nx m _ a b c h, ih]

theorem bndryTBAux_k_frame (ny m : ℕ) (u : Grid3) (a b c : ℕ) (h : 3 ≤ c) :
    bndryTBAux ny m u a b c = u a b c := by
  induction m with
  | zero => rfl
  | succ m ih => rw [bndryTBAux_succ, bndryTBBody_k_frame ny (1+m) _ a b c h, ih]

/-- Applying `bndrymms` twice gives the same field as applying it once:
the MMS boundary applier is idempotent. -/
theorem bndrymms_idem (R : RealOracle) (nx ny : ℕ) (u : Grid3)
    (hnx : 5 ≤ nx) (hny : 5 ≤ ny) (a b c : ℕ) :
    bndrymms R nx ny (bndrymms R nx ny u) a b c = bndrymms R nx ny u a b c := by
  have hYout : ∀ a2 b2 c2, a2 ≠ 0 → a2 ≠ nx-1 → b2 ≠ 0 → b2 ≠ ny-1 →
      bndrymms R nx ny u a2 b2 c2 = u a2 b2 c2 := by
    intro a2 b2 c2 h1 h2 h3 h4
    unfold bndrymms
    rw [bndrymmsTBAux_row_frame R nx ny nx _ a2 b2 c2 h3 h4,
      bndrymmsSWAux_col_frame R nx ny (ny-2) u a2 b2 c2 h1 h2]
  have hWX : ∀ a2 r, 1 ≤ r → r ≤ ny-2 →
      bndrymmsSWAux R nx ny (ny-2) (bndrymms R nx ny u) a2 r 0
        = bndrymmsSWAux R nx ny (ny-2) u a2 r 0 := by
    intro a2 r h1 h2
    by_cases ha0 : a2 = 0
    · subst ha0
      rw [bndrymmsSWAux_eval R nx ny (ny-2) _ 0 r 0 h1 h2,
        bndrymmsSWAux_eval R nx ny (ny-2) u 0 r 0 h1 h2,
        bndrymmsSWBody_left_p R nx ny r _ hnx,
        bndrymmsSWBody_left_p R nx ny r u hnx,
        hYout 1 r 0 (by omega) (by omega) (by omega) (by omega),
        hYout 2 r 0 (by omega) (by omega) (by omega) (by omega)]
    · by_cases haN : a2 = nx-1
      · subst haN
        rw [bndrymmsSWAux_eval R nx ny (ny-2) _ (nx-1) r 0 h1 h2,
          bndrymmsSWAux_eval R nx ny (ny-2) u (nx-1) r 0 h1 h2,
          bndrymmsSWBody_right_p R nx ny r _ hnx,
          bndrymmsSWBody_right_p R nx ny r u hnx,
          hYout (nx-2) r 0 (by omega) (by omega) (by omega) (by omega),
          hYout (nx-3) r 0 (by omega) (by omega) (by omega) (by omega)]
      · rw [bndrymmsSWAux_col_frame R nx ny (ny-2) _ a2 r 0 ha0 haN,
          bndrymmsSWAux_col_frame R nx ny (ny-2) u a2 r 0 ha0 haN,
          hYout a2 r 0 ha0 haN (by omega) (by omega)]
  by_cases hc3 : 3 ≤ c
  · conv_lhs => rw [bndrymms]
    rw [bndrymmsTBAux_k_frame R nx ny nx _ a b c hc3,
      bndrymmsSWAux_k_frame R nx ny (ny-2) _ a b c hc3]
  · by_cases hb0 : b = 0
    · subst hb0
      by_cases ha : a < nx
      · conv_lhs => rw [bndrymms]
        rw [bndrymmsTBAux_eval R nx ny nx _ a 0 c ha]
        conv_rhs => rw [bndrymms]
        rw [bndrymmsTBAux_eval R nx ny nx _ a 0 c ha]
        rcases (by omega : c = 0 ∨ c = 1 ∨ c = 2) with hc | hc | hc <;> subst hc
        · rw [bndrymmsTBBody_bottom_p R nx ny a _ hny,
            bndrymmsTBBody_bottom_p R nx ny a _ hny,
            hWX a 1 (by omega) (by omega), hWX a 2 (by omega) (by omega)]
        · rw [bndrymmsTBBody_bottom_u R nx ny a _ hny,
            bndrymmsTBBody_bottom_u R nx ny a _ hny]
        · rw [bndrymmsTBBody_bottom_v R nx ny a _ hny,
            bndrymmsTBBody_bottom_v R nx ny a _ hny]
      · conv_lhs => rw [bndrymms]
        rw [bndrymmsTBAux_frame R nx ny nx _ a 0 c (by omega),
          bndrymmsSWAux_frame R nx ny (ny-2) _ a 0 c (Or.inl rfl)]
    · by_cases hbN : b = ny-1
      · subst hbN
        by_cases ha : a < nx
        · conv_lhs => rw [bndrymms]
          rw [bndrymmsTBAux_eval R nx ny nx _ a (ny-1) c ha]
          conv_rhs => rw [bndrymms]
          rw [bndrymmsTBAux_eval R nx ny nx _ a (ny-1) c ha]
          rcases (by omega : c = 0 ∨ c = 1 ∨ c = 2) with hc | hc | hc <;> subst hc
          · rw [bndrymmsTBBody_top_p R nx ny a _ hny,
              bndrymmsTBBody_top_p R nx ny a _ hny,
              hWX a (ny-2) (by omega) (by omega), hWX a (ny-3) (by omega) (by omega)]
          · rw [bndrymmsTBBody_top_u R nx ny a _ hny,
              bndrymmsTBBody_top_u R nx ny a _ hny]
          · rw [bndrymmsTBBody_top_v R nx ny a _ hny,
              bndrymmsTBBody_top_v R nx ny a _ hny]
        · conv_lhs => rw [bndrymms]
          rw [bndrymmsTBAux_frame R nx ny nx _ a (ny-1) c (by omega),
            bndrymmsSWAux_frame R nx ny (ny-2) _ a (ny-1) c (Or.inr (by omega))]
      · conv_lhs => rw [bndrymms]
        rw [bndrymmsTBAux_row_frame R nx ny nx _ a b c hb0 hbN]
        by_cases hbin : 1 ≤ b ∧ b ≤ ny-2
        · by_cases ha0 : a = 0
          · subst ha0
            rw [bndrymmsSWAux_eval R nx ny (ny-2) _ 0 b c hbin.1 hbin.2]
            conv_rhs => rw [bndrymms]
            rw [bndrymmsTBAux_row_frame R nx ny nx _ 0 b c hb0 hbN,
              bndrymmsSWAux_eval R nx ny (ny-2) u 0 b c hbin.1 hbin.2]
            rcases (by omega : c = 0 ∨ c = 1 ∨ c = 2) with hc | hc | hc <;> subst hc
            · rw [bndrymmsSWBody_left_p R nx ny b _ hnx,
                bndrymmsSWBody_left_p R nx ny b u hnx,
                hYout 1 b 0 (by omega) (by omega) hb0 hbN,
                hYout 2 b 0 (by omega) (by omega) hb0 hbN]
            · rw [bndrymmsSWBody_left_u R nx ny b _ hnx,
                bndrymmsSWBody_left_u R nx ny b u hnx]
            · rw [bndrymmsSWBody_left_v R nx ny b _ hnx,
                bndrymmsSWBody_left_v R nx ny b u hnx]
          · by_cases haN : a = nx-1
            · subst haN
              rw [bndrymmsSWAux_eval R nx ny (ny-2) _ (nx-1) b c hbin.1 hbin.2]
              conv_rhs => rw [bndrymms]
              rw [bndrymmsTBAux_row_frame R nx ny nx _ (nx-1) b c hb0 hbN,
                bndrymmsSWAux_eval R nx ny (ny-2) u (nx-1) b c hbin.1 hbin.2]
              rcases (by omega : c = 0 ∨ c = 1 ∨ c = 2) with hc | hc | hc <;> subst hc
              · rw [bndrymmsSWBody_right_p R nx ny b _ hnx,
                  bndrymmsSWBody_right_p R nx ny b u hnx,
                  hYout (nx-2) b 0 (by omega) (by omega) hb0 hbN,
                  hYout (nx-3) b 0 (by omega) (by omega) hb0 hbN]
              · rw [bndrymmsSWBody_right_u R nx ny b _ hnx,
                  bndrymmsSWBody_right_u R nx ny b u hnx]
              · rw [bndrymmsSWBody_right_v R nx ny b _ hnx,
                  bndrymmsSWBody_right_v R nx ny b u hnx]
            · rw [bndrymmsSWAux_col_frame R nx ny (ny-2) _ a b c ha0 haN]
        · rw [bndrymmsSWAux_frame R nx ny (ny-2) _ a b c (by omega)]

/-- Applying `bndry` twice repeats every boundary value except possibly the
four corner pressures. -/
theorem bndry_idem_noncorner (nx ny : ℕ) (u : Grid3)
    (hnx : 5 ≤ nx) (hny : 5 ≤ ny) (a b c : ℕ)
    (h : ¬((a = 0 ∨ a = nx-1) ∧ (b = 0 ∨ b = ny-1) ∧ c = 0)) :
    bndry nx ny (bndry nx ny u) a b c = bndry nx ny u a b c := by
  have hYout : ∀ a2 b2 c2, a2 ≠ 0 → a2 ≠ nx-1 → b2 ≠ 0 → b2 ≠ ny-1 →
      bndry nx ny u a2 b2 c2 = u a2 b2 c2 := by
    intro a2 b2 c2 h1 h2 h3 h4
    unfold bndry
    rw [bndryTBAux_row_frame ny (nx-2) _ a2 b2 c2 h3 h4,
      bndryLRAux_col_frame nx ny u a2 b2 c2 h1 h2]
  have hWX : ∀ a2 r, r ≠ 0 → r ≠ ny-1 → r < ny → a2 ≠ 0 → a2 ≠ nx-1 →
      bndryLRAux nx ny (bndry nx ny u) a2 r 0 = u a2 r 0 := by
    intro a2 r h1 h2 h3 h4 h5
    rw [bndryLRAux_eval nx ny _ a2 r 0 h3,
      bndryLRBody_col_frame nx r _ a2 r 0 h4 h5,
      hYout a2 r 0 h4 h5 h1 h2]
  by_cases hc3 : 3 ≤ c
  · conv_lhs => rw [bndry]
    rw [bndryTBAux_k_frame ny (nx-2) _ a b c hc3,
      bndryLRAux_k_frame nx ny _ a b c hc3]
  · by_cases hb0 : b = 0
    · subst hb0
      by_cases haI : 1 ≤ a ∧ a ≤ nx-2
      · -- interior column of the bottom row: written by the TB pass
        conv_lhs => rw [bndry]
        rw [bndryTBAux_eval ny (nx-2) _ a 0 c haI.1 haI.2]
        conv_rhs => rw [bndry]
        rw [bndryTBAux_eval ny (nx-2) _ a 0 c haI.1 haI.2]
        rcases (by omega : c = 0 ∨ c = 1 ∨ c = 2) with hc | hc | hc <;> subst hc
        · rw [bndryTBBody_bottom_p ny a _ hny, bndryTBBody_bottom_p ny a _ hny,
            hWX a 1 (by omega) (by omega) (by omega) (by omega) (by omega),
            hWX a 2 (by omega) (by omega) (by omega) (by omega) (by omega),
            bndryLRAux_eval nx ny u a 1 0 (by omega),
            bndryLRBody_col_frame nx 1 u a 1 0 (by omega) (by omega),
            bndryLRAux_eval nx ny u a 2 0 (by omega),
            bndryLRBody_col_frame nx 2 u a 2 0 (by omega) (by omega)]
        · rw [bndryTBBody_bottom_u ny a _ hny, bndryTBBody_bottom_u ny a _ hny]
        · rw [bndryTBBody_bottom_v ny a _ hny, bndryTBBody_bottom_v ny a _ hny]
      · by_cases hac : a = 0 ∨ a = nx-1
        · -- bottom corners: only velocities are claimed (c = 0 is excluded)
          have hc12 : c = 1 ∨ c = 2 := by omega
          conv_lhs => rw [bndry]
          rw [bndryTBAux_frame ny (nx-2) _ a 0 c (by omega),
            bndryLRAux_eval nx ny _ a 0 c (by omega)]
          conv_rhs => rw [bndry]
          rw [bndryTBAux_frame ny (nx-2) _ a 0 c (by omega),
            bndryLRAux_eval nx ny u a 0 c (by omega)]
          rcases hac with rfl | rfl
          · rcases hc12 with rfl | rfl
            · rw [bndryLRBody_left_u nx 0 _ hnx, bndryLRBody_left_u nx 0 u hnx]
            · rw [bndryLRBody_left_v nx 0 _ hnx, bndryLRBody_left_v nx 0 u hnx]
          · rcases hc12 with rfl | rfl
            · rw [bndryLRBody_right_u nx 0 _ hnx, bndryLRBody_right_u nx 0 u hnx]
            · rw [bndryLRBody_right_v nx 0 _ hnx, bndryLRBody_right_v nx 0 u hnx]
        · -- outside the grid columns
          conv_lhs => rw [bndry]
          rw [bndryTBAux_frame ny (nx-2) _ a 0 c (by omega),
            bndryLRAux_eval nx ny _ a 0 c (by omega),
            bndryLRBody_col_frame nx 0 _ a 0 c (by omega) (by omega)]
    · by_cases hbN : b = ny-1
      · subst hbN
        by_cases haI : 1 ≤ a ∧ a ≤ nx-2
        · conv_lhs => rw [bndry]
          rw [bndryTBAux_eval ny (nx-2) _ a (ny-1) c haI.1 haI.2]
          conv_rhs => rw [bndry]
          rw [bndryTBAux_eval ny (nx-2) _ a (ny-1) c haI.1 haI.2]
          rcases (by omega : c = 0 ∨ c = 1 ∨ c = 2) with hc | hc | hc <;> subst hc
          · rw [bndryTBBody_top_p ny a _ hny, bndryTBBody_top_p ny a _ hny,
              hWX a (ny-2) (by omega) (by omega) (by omega) (by omega) (by omega),
              hWX a (ny-3) (by omega) (by omega) (by omega) (by omega) (by omega),
              bndryLRAux_eval nx ny u a (ny-2) 0 (by omega),
              bndryLRBody_col_frame nx (ny-2) u a (ny-2) 0 (by omega) (by omega),
              bndryLRAux_eval nx ny u a (ny-3) 0 (by omega),
              bndryLRBody_col_frame nx (ny-3) u a (ny-3) 0 (by omega) (by omega)]
          · rw [bndryTBBody_top_u ny a _ hny, bndryTBBody_top_u ny a _ hny]
          · rw [bndryTBBody_top_v ny a _ hny, bndryTBBody_top_v ny a _ hny]
        · by_cases hac : a = 0 ∨ a = nx-1
          · have hc12 : c = 1 ∨ c = 2 := by omega
            conv_lhs => rw [bndry]
            rw [bndryTBAux_frame ny (nx-2) _ a (ny-1) c (by omega),
              bndryLRAux_eval nx ny _ a (ny-1) c (by omega)]
            conv_rhs => rw [bndry]
            rw [bndryTBAux_frame ny (nx-2) _ a (ny-1) c (by omega),
              bndryLRAux_eval nx ny u a (ny-1) c (by omega)]
            rcases hac with rfl | rfl
            · rcases hc12 with rfl | rfl
              · rw [bndryLRBody_left_u nx (ny-1) _ hnx,
                  bndryLRBody_left_u nx (ny-1) u hnx]
              · rw [bndryLRBody_left_v nx (ny-1) _ hnx,
                  bndryLRBody_left_v nx (ny-1) u hnx]
            · rcases hc12 with rfl | rfl
              · rw [bndryLRBody_right_u nx (ny-1) _ hnx,
                  bndryLRBody_right_u nx (ny-1) u hnx]
              · rw [bndryLRBody_right_v nx (ny-1) _ hnx,
                  bndryLRBody_right_v nx (ny-1) u hnx]
          · conv_lhs => rw [bndry]
            rw [bndryTBAux_frame ny (nx-2) _ a (ny-1) c (by omega),
              bndryLRAux_eval nx ny _ a (ny-1) c (by omega),
              bndryLRBody_col_frame nx (ny-1) _ a (ny-1) c (by omega) (by omega)]
      · -- rows untouched by the TB pass
        conv_lhs => rw [bndry]
        rw [bndryTBAux_row_frame ny (nx-2) _ a b c hb0 hbN]
        by_cases hbin : b < ny
        · by_cases ha0 : a = 0
          · subst ha0
            rw [bndryLRAux_eval nx ny _ 0 b c hbin]
            conv_rhs => rw [bndry]
            rw [bndryTBAux_row_frame ny (nx-2) _ 0 b c hb0 hbN,
              bndryLRAux_eval nx ny u 0 b c hbin]
            rcases (by omega : c = 0 ∨ c = 1 ∨ c = 2) with hc | hc | hc <;> subst hc
            · rw [bndryLRBody_left_p nx b _ hnx, bndryLRBody_left_p nx b u hnx,
                hYout 1 b 0 (by omega) (by omega) hb0 hbN,
                hYout 2 b 0 (by omega) (by omega) hb0 hbN]
            · rw [bndryLRBody_left_u nx b _ hnx, bndryLRBody_left_u nx b u hnx]
            · rw [bndryLRBody_left_v nx b _ hnx, bndryLRBody_left_v nx b u hnx]
          · by_cases haN : a = nx-1
            · subst haN
              rw [bndryLRAux_eval nx ny _ (nx-1) b c hbin]
              conv_rhs => rw [bndry]
              rw [bndryTBAux_row_frame ny (nx-2) _ (nx-1) b c hb0 hbN,
                bndryLRAux_eval nx ny u (nx-1) b c hbin]
              rcases (by omega : c = 0 ∨ c = 1 ∨ c = 2) with hc | hc | hc <;> subst hc
              · rw [bndryLRBody_right_p nx b _ hnx, bndryLRBody_right_p nx b u hnx,
                  hYout (nx-2) b 0 (by omega) (by omega) hb0 hbN,
                  hYout (nx-3) b 0 (by omega) (by omega) hb0 hbN]
              · rw [bndryLRBody_right_u nx b _ hnx, bndryLRBody_right_u nx b u hnx]
              · rw [bndryLRBody_right_v nx b _ hnx, bndryLRBody_right_v nx b u hnx]
            · rw [bndryLRAux_eval nx ny _ a b c hbin,
                bndryLRBody_col_frame nx b _ a b c ha0 haN]
        · rw [bndryLRAux_frame nx ny _ a b c (by omega)]

/-- C8 amended: the MMS boundary applier `bndrymms` is idempotent, and the
cavity-wall applier `bndry` repeats every value except possibly the four
corner pressures (whose extrapolation reads row-0 and lid-row neighbors
that the first application's bottom/top pass rewrote). -/
theorem claim_C8_amended (nx ny : ℕ) (R : RealOracle) (u : Grid3)
    (hnx : 5 ≤ nx) (hny : 5 ≤ ny) :
    (∀ a b c, bndrymms R nx ny (bndrymms R nx ny u) a b c
        = bndrymms R nx ny u a b c)
    ∧ (∀ a b c, ¬((a = 0 ∨ a = nx-1) ∧ (b = 0 ∨ b = ny-1) ∧ c = 0) →
        bndry nx ny (bndry nx ny u) a b c = bndry nx ny u a b c) :=
  ⟨fun a b c => bndrymms_idem R nx ny u hnx hny a b c,
   fun a b c h => bndry_idem_noncorner nx ny u hnx hny a b c h⟩

/-- C8 witness: the amended theorem applied on a concrete 5-by-5 grid, at
a non-corner boundary node. -/
theorem claim_C8_amended_witness :
    5 ≤ 5 ∧ bndry 5 5 (bndry 5 5 uC8) 1 0 0 = bndry 5 5 uC8 1 0 0 :=
  ⟨by norm_num,
    (claim_C8_amended 5 5 oid uC8 (by norm_num) (by norm_num)).2 1 0 0 (by omega)⟩

end DrivenCavity
